import Mathlib

/-!
Shallow embedding of the otris structured-log handler (package `otris`):
the record encoder (`handleState` and its append functions), the JSON and
text escaping, `needsQuoting`, the `Handler` bind operations
(`WithAttrs` / `WithGroup` / `clone`) and `Handle`, translated from
`src/state.go`, `src/unnamed/part_001`, `src/unnamed/part_003`,
`src/unnamed/part_004`.

Go strings and byte slices are embedded as `List Nat` (one entry per byte,
each < 256); machine integers as `Int`/`Nat`.  Loops that walk a string by
rune are translated to recursion on the byte list.  `sync.Mutex`, the
buffer pool and `freeBuf` are memory/concurrency artefacts with no effect
on the bytes produced and are not modelled; the writer is a function from
the written bytes to an optional error.
-/

namespace Otris

/-- GoStr is a Go string or byte slice: a list of bytes. -/
abbrev GoStr := List Nat

/-- utf8EncodeChar is the UTF-8 encoding of a single code point (used to
turn Lean string literals into Go byte strings). -/
def utf8EncodeChar (c : Nat) : List Nat :=
  if c < 0x80 then [c]
  else if c < 0x800 then [0xC0 + c / 0x40, 0x80 + c % 0x40]
  else if c < 0x10000 then
    [0xE0 + c / 0x1000, 0x80 + (c / 0x40) % 0x40, 0x80 + c % 0x40]
  else
    [0xF0 + c / 0x40000, 0x80 + (c / 0x1000) % 0x40,
     0x80 + (c / 0x40) % 0x40, 0x80 + c % 0x40]

/-- gs converts a Lean string literal to the byte string of its UTF-8
encoding, the representation Go uses. -/
def gs (s : String) : GoStr :=
  (s.data.map (fun c => utf8EncodeChar c.toNat)).flatten

/-- RuneError is utf8.RuneError = U+FFFD, the replacement character. -/
def RuneError : Nat := 0xFFFD

/-- decodeRuneInString is utf8.DecodeRuneInString: the first rune of the
byte string and the number of bytes it occupies.  An empty string gives
(RuneError, 0); an invalid, overlong, surrogate or truncated encoding
gives (RuneError, 1). -/
def decodeRuneInString : GoStr → Nat × Nat
  | [] => (RuneError, 0)
  | b0 :: rest =>
    if b0 < 0x80 then (b0, 1)
    else if b0 < 0xC2 then (RuneError, 1)
    else if b0 < 0xE0 then
      match rest with
      | b1 :: _ =>
        if 0x80 ≤ b1 ∧ b1 < 0xC0 then ((b0 - 0xC0) * 0x40 + (b1 - 0x80), 2)
        else (RuneError, 1)
      | [] => (RuneError, 1)
    else if b0 < 0xF0 then
      match rest with
      | b1 :: b2 :: _ =>
        if (if b0 = 0xE0 then 0xA0 ≤ b1 ∧ b1 < 0xC0
            else if b0 = 0xED then 0x80 ≤ b1 ∧ b1 < 0xA0
            else 0x80 ≤ b1 ∧ b1 < 0xC0) then
          if 0x80 ≤ b2 ∧ b2 < 0xC0 then
            ((b0 - 0xE0) * 0x1000 + (b1 - 0x80) * 0x40 + (b2 - 0x80), 3)
          else (RuneError, 1)
        else (RuneError, 1)
      | [b1] =>
        if (if b0 = 0xE0 then 0xA0 ≤ b1 ∧ b1 < 0xC0
            else if b0 = 0xED then 0x80 ≤ b1 ∧ b1 < 0xA0
            else 0x80 ≤ b1 ∧ b1 < 0xC0) then (RuneError, 1)
        else (RuneError, 1)
      | [] => (RuneError, 1)
    else if b0 < 0xF5 then
      match rest with
      | b1 :: b2 :: b3 :: _ =>
        if (if b0 = 0xF0 then 0x90 ≤ b1 ∧ b1 < 0xC0
            else if b0 = 0xF4 then 0x80 ≤ b1 ∧ b1 < 0x90
            else 0x80 ≤ b1 ∧ b1 < 0xC0) then
          if 0x80 ≤ b2 ∧ b2 < 0xC0 then
            if 0x80 ≤ b3 ∧ b3 < 0xC0 then
              ((b0 - 0xF0) * 0x40000 + (b1 - 0x80) * 0x1000
                + (b2 - 0x80) * 0x40 + (b3 - 0x80), 4)
            else (RuneError, 1)
          else (RuneError, 1)
        else (RuneError, 1)
      | _ => (RuneError, 1)
    else (RuneError, 1)

/-- goValidUTF8 is utf8.ValidString: every position decodes without error. -/
def goValidUTF8 : GoStr → Bool
  | [] => true
  | b :: rest =>
    let d := decodeRuneInString (b :: rest)
    if d.1 = RuneError ∧ d.2 = 1 then false
    else goValidUTF8 (rest.drop (d.2 - 1))
termination_by s => s.length
decreasing_by
  simp only [List.length_drop, List.length_cons]; omega

/-- safeSet is the table from part_001 (copied there from
encoding/json/tables.go): every ASCII byte can stand unescaped in a JSON
string except the control characters 0x00-0x1F, the double quote and the
backslash.  The Go array is indexed only with bytes below 0x80. -/
def safeSet (b : Nat) : Bool := 0x20 ≤ b && b ≠ 0x22 && b ≠ 0x5C

/-- hex is the digit table "0123456789abcdef" from part_001. -/
def hex : GoStr := gs "0123456789abcdef"

/-- hexDigit is hex[n], the lower-case hex digit byte for n < 16. -/
def hexDigit (n : Nat) : Nat := hex.getD n 0x30

/-- escapeJSON is the loop body of appendEscapedJSONString (part_001
lines 252-319) applied to the whole string: safe ASCII bytes are copied,
the other ASCII bytes get their backslash escape (short forms for
backslash, quote, newline, carriage return and tab, otherwise a u00XX
escape), a byte at which rune decoding fails becomes the literal six
bytes of a ufffd escape, U+2028 and U+2029 become u2028/u2029 escapes,
and every other decoded rune is copied byte for byte.  The source keeps a
start index and flushes runs s[start:i]; the bytes appended are the same
as appending each piece directly, which is what this translation does. -/
def escapeJSON : GoStr → GoStr
  | [] => []
  | b :: rest =>
    if b < 0x80 then
      if safeSet b then b :: escapeJSON rest
      else
        (0x5C ::
          (if b = 0x5C ∨ b = 0x22 then [b]
           else if b = 0x0A then [0x6E]
           else if b = 0x0D then [0x72]
           else if b = 0x09 then [0x74]
           else [0x75, 0x30, 0x30, hexDigit (b / 16), hexDigit (b % 16)]))
          ++ escapeJSON rest
    else
      let d := decodeRuneInString (b :: rest)
      if d.1 = RuneError ∧ d.2 = 1 then
        gs "\\ufffd" ++ escapeJSON rest
      else if d.1 = 0x2028 ∨ d.1 = 0x2029 then
        (gs "\\u202" ++ [hexDigit (d.1 % 16)]) ++ escapeJSON (rest.drop (d.2 - 1))
      else
        (b :: rest).take d.2 ++ escapeJSON (rest.drop (d.2 - 1))
termination_by s => s.length
decreasing_by
  all_goals simp only [List.length_drop, List.length_cons]; omega

/-- appendEscapedJSONString from part_001: appends the JSON escape of s to
buf (no surrounding quotes). -/
def appendEscapedJSONString (buf : GoStr) (s : GoStr) : GoStr :=
  buf ++ escapeJSON s

/-- hexVal reads one lower- or upper-case hex digit byte. -/
def hexVal (b : Nat) : Option Nat :=
  if 0x30 ≤ b ∧ b ≤ 0x39 then some (b - 0x30)
  else if 0x61 ≤ b ∧ b ≤ 0x66 then some (b - 0x61 + 10)
  else if 0x41 ≤ b ∧ b ≤ 0x46 then some (b - 0x41 + 10)
  else none

/-- hex4 combines four hex digit bytes into a code unit. -/
def hex4 (a b c d : Nat) : Option Nat :=
  match hexVal a, hexVal b, hexVal c, hexVal d with
  | some x, some y, some z, some w => some (((x * 16 + y) * 16 + z) * 16 + w)
  | _, _, _, _ => none

/-- unescU reads the four hex digits after a "\u" introducer (and, for
a high surrogate, a following "\u" low surrogate), re-encodes the code
point as UTF-8, and reports how many input bytes it consumed. -/
def unescU : GoStr → Option (GoStr × Nat)
  | a :: b :: c :: d :: t =>
    match hex4 a b c d with
    | none => none
    | some cp =>
      if 0xD800 ≤ cp ∧ cp < 0xDC00 then
        match t with
        | x :: y :: a2 :: b2 :: c2 :: d2 :: _ =>
          if x = 0x5C ∧ y = 0x75 then
            match hex4 a2 b2 c2 d2 with
            | some lo =>
              if 0xDC00 ≤ lo ∧ lo < 0xE000 then
                some (utf8EncodeChar (0x10000 + (cp - 0xD800) * 0x400 + (lo - 0xDC00)), 10)
              else none
            | none => none
          else none
        | _ => none
      else if 0xDC00 ≤ cp ∧ cp < 0xE000 then none
      else some (utf8EncodeChar cp, 4)
  | _ => none

/-- unescStep reads one token of a JSON-escaped string (RFC 8259
section 7): a backslash escape (short forms or a uXXXX escape through
unescU) or one ordinary byte.  It returns the decoded bytes and how
many input bytes beyond the first were consumed; none for a malformed
escape. -/
def unescStep : GoStr → Option (GoStr × Nat)
  | [] => none
  | b :: rest =>
    if b = 0x5C then
      match rest with
      | [] => none
      | e :: t =>
        if e = 0x22 then some ([0x22], 1)
        else if e = 0x5C then some ([0x5C], 1)
        else if e = 0x2F then some ([0x2F], 1)
        else if e = 0x62 then some ([0x08], 1)
        else if e = 0x66 then some ([0x0C], 1)
        else if e = 0x6E then some ([0x0A], 1)
        else if e = 0x72 then some ([0x0D], 1)
        else if e = 0x74 then some ([0x09], 1)
        else if e = 0x75 then
          match unescU t with
          | none => none
          | some (chunk, n) => some (chunk, 1 + n)
        else none
    else some ([b], 0)

/-- jsonUnescape is standard JSON string unescaping: unescStep applied
until the input is exhausted.  It is the claim-side inverse used by the
round-trip claims. -/
def jsonUnescape : GoStr → Option GoStr
  | [] => some []
  | b :: rest =>
    match unescStep (b :: rest) with
    | none => none
    | some (chunk, k) => (jsonUnescape (rest.drop k)).map (chunk ++ ·)
termination_by s => s.length
decreasing_by
  simp only [List.length_drop, List.length_cons]
  omega

/-- goIsSpace is unicode.IsSpace: for Latin-1 the characters
tab, newline, vertical tab, form feed, carriage return, space, NEL and
no-break space; above Latin-1 the White_Space code points. -/
def goIsSpace (r : Nat) : Bool :=
  if r < 0x100 then
    r = 0x09 || r = 0x0A || r = 0x0B || r = 0x0C || r = 0x0D || r = 0x20
      || r = 0x85 || r = 0xA0
  else
    r = 0x1680 || (0x2000 ≤ r && r ≤ 0x200A) || r = 0x2028 || r = 0x2029
      || r = 0x202F || r = 0x205F || r = 0x3000

/-- goIsPrint models unicode.IsPrint (the Go Unicode tables are an
external collaborator of this package).  It is exact on Latin-1 — the
graphic characters plus ASCII space, without the soft hyphen — and above
Latin-1 it is a stand-in that excludes the separator, control, surrogate,
noncharacter and unassigned-plane ranges the theorems below could meet.
Every theorem uses goIsPrint identically on its code side and its spec
side, so no verdict depends on the stand-in's values. -/
def goIsPrint (r : Nat) : Bool :=
  if r < 0x100 then
    (0x20 ≤ r && r ≤ 0x7E) || (0xA1 ≤ r && r ≤ 0xFF && r ≠ 0xAD)
  else
    !(goIsSpace r) && !(0x2028 ≤ r && r ≤ 0x2029) && !(0xD800 ≤ r && r ≤ 0xDFFF)
      && !(0x200B ≤ r && r ≤ 0x200F) && !(0x202A ≤ r && r ≤ 0x202E)
      && !(0xFDD0 ≤ r && r ≤ 0xFDEF) && r % 0x10000 ≠ 0xFFFE
      && r % 0x10000 ≠ 0xFFFF && r ≤ 0x10FFFF

/-- needsQuoting from part_001 lines 160-182: walks the string; an ASCII
byte other than a backslash that is a space, an equals sign or outside
the JSON safe set forces quoting; a decoded rune that is the error rune,
a Unicode space or not printable forces quoting; the empty string always
needs quoting. -/
def needsQuotingLoop : GoStr → Bool
  | [] => false
  | b :: rest =>
    if b < 0x80 then
      if b ≠ 0x5C ∧ (b = 0x20 ∨ b = 0x3D ∨ ¬safeSet b) then true
      else needsQuotingLoop rest
    else
      let d := decodeRuneInString (b :: rest)
      if d.1 = RuneError ∨ goIsSpace d.1 ∨ ¬goIsPrint d.1 then true
      else needsQuotingLoop (rest.drop (d.2 - 1))
termination_by s => s.length
decreasing_by
  all_goals simp only [List.length_drop, List.length_cons]; omega

/-- needsQuoting from part_001: empty strings need quoting, otherwise the
loop above decides. -/
def needsQuoting (s : GoStr) : Bool := s.isEmpty || needsQuotingLoop s

/-- runePositions lists the suffixes of a byte string at the positions
the needsQuoting loop visits: one byte per ASCII byte, the decoded size
otherwise.  Used to state the corrected needsQuoting claim as an
existential over positions rather than a loop. -/
def runePositions : GoStr → List GoStr
  | [] => []
  | b :: rest =>
    (b :: rest) ::
      (if b < 0x80 then runePositions rest
       else runePositions (rest.drop ((decodeRuneInString (b :: rest)).2 - 1)))
termination_by s => s.length
decreasing_by
  all_goals simp only [List.length_drop, List.length_cons]; omega

/-- quotingBad is the per-position condition of the needsQuoting loop:
the condition under which the loop returns true at that suffix. -/
def quotingBad : GoStr → Bool
  | [] => false
  | b :: rest =>
    if b < 0x80 then
      decide (b ≠ 0x5C ∧ (b = 0x20 ∨ b = 0x3D ∨ ¬safeSet b))
    else
      let d := decodeRuneInString (b :: rest)
      decide (d.1 = RuneError ∨ goIsSpace d.1 ∨ ¬goIsPrint d.1)

/-- claimNeedsQuoting is the predicate the original claim C5 describes,
word for word: the string is empty, contains an ASCII space, contains an
equals sign, contains an ASCII control byte (0x00-0x1F or DEL), contains
an invalid UTF-8 sequence, or contains a Unicode character that is a
space or non-printable. -/
def claimNeedsQuoting (s : GoStr) : Bool :=
  s.isEmpty
    || s.any (fun b => b = 0x20 || b = 0x3D || b < 0x20 || b = 0x7F)
    || !goValidUTF8 s
    || (runePositions s).any (fun t =>
         match t with
         | [] => false
         | b :: _ =>
           if b < 0x80 then false
           else
             let r := (decodeRuneInString t).1
             goIsSpace r || !goIsPrint r)

/-- goQuote models strconv.Quote (Go standard library, an external
collaborator): a double-quoted Go string literal with backslash escapes
for quote and backslash, short escapes for the ASCII control characters
that have them, hex/unicode escapes for the rest, and printable runes
copied verbatim.  Only its behaviour on printable ASCII is evaluated by
any theorem below. -/
def goQuoteBody : GoStr → GoStr
  | [] => []
  | b :: rest =>
    if b < 0x80 then
      (if b = 0x22 ∨ b = 0x5C then [0x5C, b]
       else if 0x20 ≤ b ∧ b ≤ 0x7E then [b]
       else if b = 0x07 then gs "\\a"
       else if b = 0x08 then gs "\\b"
       else if b = 0x0C then gs "\\f"
       else if b = 0x0A then gs "\\n"
       else if b = 0x0D then gs "\\r"
       else if b = 0x09 then gs "\\t"
       else if b = 0x0B then gs "\\v"
       else gs "\\x" ++ [hexDigit (b / 16), hexDigit (b % 16)])
        ++ goQuoteBody rest
    else
      let d := decodeRuneInString (b :: rest)
      if d.1 = RuneError ∧ d.2 = 1 then
        (gs "\\x" ++ [hexDigit (b / 16), hexDigit (b % 16)]) ++ goQuoteBody rest
      else if goIsPrint d.1 then
        (b :: rest).take d.2 ++ goQuoteBody (rest.drop (d.2 - 1))
      else if d.1 < 0x10000 then
        (gs "\\u" ++ [hexDigit (d.1 / 0x1000 % 16), hexDigit (d.1 / 0x100 % 16),
                      hexDigit (d.1 / 16 % 16), hexDigit (d.1 % 16)])
          ++ goQuoteBody (rest.drop (d.2 - 1))
      else
        (gs "\\U" ++ (List.range 8).map
            (fun i => hexDigit (d.1 / 16 ^ (7 - i) % 16)))
          ++ goQuoteBody (rest.drop (d.2 - 1))
termination_by s => s.length
decreasing_by
  all_goals simp only [List.length_drop, List.length_cons]; omega

/-- goQuote is strconv.Quote: goQuoteBody surrounded by double quotes. -/
def goQuote (s : GoStr) : GoStr := 0x22 :: goQuoteBody s ++ [0x22]

/-- natDecimal is the decimal digit string of a natural number. -/
def natDecimal (n : Nat) : GoStr :=
  if h : n < 10 then [0x30 + n]
  else natDecimal (n / 10) ++ [0x30 + n % 10]
termination_by n
decreasing_by
  exact Nat.div_lt_self (by omega) (by omega)

/-- goAppendUint is strconv.AppendUint base 10: appends the decimal
digits. -/
def goAppendUint (buf : GoStr) (n : Nat) : GoStr := buf ++ natDecimal n

/-- goAppendInt is strconv.AppendInt base 10: a minus sign for negative
values, then the decimal digits. -/
def goAppendInt (buf : GoStr) (i : Int) : GoStr :=
  buf ++ (if i < 0 then 0x2D :: natDecimal i.natAbs else natDecimal i.natAbs)

/-- goAppendBool is strconv.AppendBool. -/
def goAppendBool (buf : GoStr) (b : Bool) : GoStr :=
  buf ++ (if b then gs "true" else gs "false")

/-- goFormatIntPlus is fmt's %+d: an explicit sign, then the decimal
digits (used by slog.Level.String). -/
def goFormatIntPlus (i : Int) : GoStr :=
  (if i < 0 then [0x2D] else [0x2B]) ++ natDecimal i.natAbs

/-- padZeros left-pads a digit string with zeros to the given width. -/
def padZeros (w : Nat) (l : GoStr) : GoStr :=
  List.replicate (w - l.length) 0x30 ++ l

/-- OTime embeds a Go time.Time as broken-down civil time: year, month,
day, hour, minute, second, nanosecond and the zone offset in seconds.
The monotonic-clock reading of time.Time is not observable in any output
byte and is not modelled, so Round(0) — which only strips it — is the
identity here. -/
structure OTime where
  year : Int
  month : Nat
  day : Nat
  hour : Nat
  minute : Nat
  second : Nat
  nsec : Nat
  offsetSeconds : Int
deriving DecidableEq, Repr

/-- otimeZero is the zero time.Time: January 1, year 1, 00:00:00 UTC. -/
def otimeZero : OTime := ⟨1, 1, 1, 0, 0, 0, 0, 0⟩

/-- OTime.isZero is time.Time.IsZero. -/
def OTime.isZero (t : OTime) : Bool := t = otimeZero

/-- writePosIntWidth is buffer.WritePosIntWidth: the decimal digits of a
nonnegative integer, zero-padded on the left to the given width. -/
def writePosIntWidth (buf : GoStr) (i : Int) (w : Nat) : GoStr :=
  buf ++ padZeros w (natDecimal i.toNat)

/-- writeTimeRFC3339Millis from state.go lines 231-263: hand-rolled
RFC 3339 with milliseconds — date, 'T', clock, '.', three millisecond
digits, then 'Z' for a zero zone offset or a signed hh:mm offset. -/
def writeTimeRFC3339Millis (buf : GoStr) (t : OTime) : GoStr :=
  let b1 := writePosIntWidth buf t.year 4
  let b2 := writePosIntWidth (b1 ++ [0x2D]) t.month 2
  let b3 := writePosIntWidth (b2 ++ [0x2D]) t.day 2
  let b4 := writePosIntWidth (b3 ++ [0x54]) t.hour 2
  let b5 := writePosIntWidth (b4 ++ [0x3A]) t.minute 2
  let b6 := writePosIntWidth (b5 ++ [0x3A]) t.second 2
  let b7 := writePosIntWidth (b6 ++ [0x2E]) (t.nsec / 1000000) 3
  if t.offsetSeconds = 0 then b7 ++ [0x5A]
  else
    let offsetMinutes : Int := t.offsetSeconds / 60
    let b8 := b7 ++ (if offsetMinutes < 0 then [0x2D] else [0x2B])
    let m := offsetMinutes.natAbs
    writePosIntWidth (writePosIntWidth b8 (m / 60) 2 ++ [0x3A]) (m % 60) 2

/-- trimRightZeros drops trailing '0' digits (time's format of a
fractional second under a "9..." layout). -/
def trimRightZeros (l : GoStr) : GoStr :=
  (l.reverse.dropWhile (fun b => b = 0x30)).reverse

/-- rfc3339NanoBytes models t.AppendFormat(buf, time.RFC3339Nano) of the
Go time package (an external collaborator): date and clock as in
RFC 3339, a fractional second with trailing zeros removed and omitted
when zero, 'Z' for a zero offset and a signed hh:mm offset otherwise.
Years outside [0,9999] print with a sign and however many digits they
need, which is what time.AppendFormat's four-width integer append does. -/
def rfc3339NanoBytes (buf : GoStr) (t : OTime) : GoStr :=
  let by' := buf ++ (if t.year < 0 then [0x2D] else [])
  let b1 := by' ++ padZeros 4 (natDecimal t.year.natAbs)
  let b2 := writePosIntWidth (b1 ++ [0x2D]) t.month 2
  let b3 := writePosIntWidth (b2 ++ [0x2D]) t.day 2
  let b4 := writePosIntWidth (b3 ++ [0x54]) t.hour 2
  let b5 := writePosIntWidth (b4 ++ [0x3A]) t.minute 2
  let b6 := writePosIntWidth (b5 ++ [0x3A]) t.second 2
  let b7 := b6 ++
    (if t.nsec = 0 then [] else 0x2E :: trimRightZeros (padZeros 9 (natDecimal t.nsec)))
  if t.offsetSeconds = 0 then b7 ++ [0x5A]
  else
    let offsetMinutes : Int := t.offsetSeconds / 60
    let b8 := b7 ++ (if offsetMinutes < 0 then [0x2D] else [0x2B])
    let m := offsetMinutes.natAbs
    writePosIntWidth (writePosIntWidth b8 (m / 60) 2 ++ [0x3A]) (m % 60) 2

/-- goTimeAppendFormat models t.AppendFormat(buf, layout) for an
arbitrary layout string (the Go time package's layout engine, an
external collaborator).  The RFC3339Nano layout is rendered exactly;
every other layout falls back to the same rendering as an unspecified
stand-in — the pretty handler's custom-layout output is not judged by
any theorem below. -/
def goTimeAppendFormat (buf : GoStr) (t : OTime) (_layout : GoStr) : GoStr :=
  rfc3339NanoBytes buf t

/-- goTimeString models time.Time.String (external collaborator,
reached only through valueAppend's KindTime case, which no theorem
below evaluates). -/
def goTimeString (t : OTime) : GoStr :=
  writeTimeRFC3339Millis [] t

/-- goDurationString models time.Duration.String (external collaborator,
reached only through valueAppend's KindDuration case, which no theorem
below evaluates): stand-in of the nanosecond count and "ns". -/
def goDurationString (d : Int) : GoStr :=
  goAppendInt [] d ++ gs "ns"

-- Levels (src/level.go, src/unnamed/part_004)

/-- LevelFx is the custom fx logging level, slog.Level(-8). -/
def LevelFx : Int := -8

/-- LevelFxError is the custom fx error level, slog.Level(-7). -/
def LevelFxError : Int := -7

/-- LevelDebug is slog.LevelDebug = -4. -/
def LevelDebug : Int := -4

/-- LevelInfo is slog.LevelInfo = 0. -/
def LevelInfo : Int := 0

/-- LevelWarning is slog.LevelWarn = 4. -/
def LevelWarning : Int := 4

/-- LevelError is slog.LevelError = 8. -/
def LevelError : Int := 8

/-- levelString is slog.Level.String (log/slog, an external collaborator
of part_004): the nearest named level below, with a %+d suffix for the
distance when it is not zero. -/
def levelString (l : Int) : GoStr :=
  if l < LevelInfo then gs "DEBUG" ++ (if l - LevelDebug = 0 then [] else goFormatIntPlus (l - LevelDebug))
  else if l < LevelWarning then gs "INFO" ++ (if l = 0 then [] else goFormatIntPlus l)
  else if l < LevelError then gs "WARN" ++ (if l - LevelWarning = 0 then [] else goFormatIntPlus (l - LevelWarning))
  else gs "ERROR" ++ (if l - LevelError = 0 then [] else goFormatIntPlus (l - LevelError))

/-- GetLevelName from part_004 lines 18-28: "FX" for LevelFx, "FXError"
for LevelFxError, the level's String() otherwise. -/
def GetLevelName (level : Int) : GoStr :=
  if level = LevelFx then gs "FX"
  else if level = LevelFxError then gs "FXError"
  else levelString level

/-- LevelColorMap from part_003: a map from level to an SGR color code,
embedded as an association list (only lookup is ever performed on it). -/
abbrev LevelColorMap := List (Int × Int)

/-- DefaultColorMap from part_003 lines 14-21, with the fatih/color SGR
constants: FgCyan 36, FgHiRed 91, FgBlue 34, FgHiGreen 92, FgYellow 33,
FgRed 31. -/
def DefaultColorMap : LevelColorMap :=
  [(LevelFx, 36), (LevelFxError, 91), (LevelDebug, 34),
   (LevelInfo, 92), (LevelWarning, 33), (LevelError, 31)]

/-- EmptyColorMap from part_003 line 24. -/
def EmptyColorMap : LevelColorMap := []

/-- GetColor from part_004 lines 32-39: the mapped color, or 37
(color.FgWhite) when the level has no entry. -/
def GetColor (m : LevelColorMap) (lvl : Int) : Int :=
  match m.lookup lvl with
  | some c => c
  | none => 37

/-- colorFprint models color.New(attr).Fprint(buf, str) of fatih/color
(an external collaborator): the SGR escape for the attribute, the text,
then the SGR reset. -/
def colorFprint (c : Int) (buf : GoStr) (s : GoStr) : GoStr :=
  buf ++ (gs "\x1b[" ++ goAppendInt [] c ++ gs "m") ++ s ++ gs "\x1b[0m"

-- Value model (log/slog values as the encoder dispatches on them)

/-- AnyVal embeds the payload of a KindAny slog.Value as a closed union
of the payload shapes the encoder dispatches on: the nil payload, a
*slog.Source, an error, an encoding.TextMarshaler (carrying its
MarshalText result), a byte slice, a slog.Level, and an opaque payload
carrying what the external fmt %+v and encoding/json marshalers produce
for it (json's result is an Except because json.Marshal can fail). -/
inductive AnyVal where
  | nilAny
  | srcVal (fn : GoStr) (file : GoStr) (line : Int)
  | errVal (msg : GoStr)
  | textVal (data : GoStr) (err : Option GoStr)
  | bytesVal (bs : GoStr)
  | levelVal (l : Int)
  | opaqueVal (txt : GoStr) (js : Except GoStr GoStr)

/-- Value embeds slog.Value: the tagged union the encoder switches on
with Kind().  A float payload is opaque to the encoder except through
the external strconv / encoding-json formatters, so the float case
carries those two formatting results; logVal is a KindLogValuer payload
(a deferred producer). -/
inductive Value where
  | strV (s : GoStr)
  | intV (i : Int)
  | uintV (u : Nat)
  | floatV (txt : GoStr) (js : Except GoStr GoStr)
  | boolV (b : Bool)
  | durV (d : Int)
  | timeV (t : OTime)
  | groupV (attrs : List (GoStr × Value))
  | anyV (a : AnyVal)
  | logVal (f : Unit → Value)

/-- Attr is slog.Attr: a key and a value. -/
abbrev Attr := GoStr × Value

/-- isEmptyGroup from part_001 lines 26-34: a group value with no
attributes. -/
def isEmptyGroup : Value → Bool
  | .groupV attrs => attrs.isEmpty
  | _ => false

/-- countEmptyGroups from part_001 lines 37-45. -/
def countEmptyGroups (as' : List Attr) : Nat :=
  (as'.filter (fun a => isEmptyGroup a.2)).length

/-- GroupValue is slog.GroupValue (log/slog, an external collaborator):
it removes the attributes that are empty groups when the group is
constructed, the fact part_001's isEmptyGroup relies on. -/
def GroupValue (as' : List Attr) : Value :=
  .groupV (as'.filter (fun a => !isEmptyGroup a.2))

/-- isEmpty from part_001 lines 81-83: an empty key with the nil Any
value, the canonical no-op attribute. -/
def isEmpty (a : Attr) : Bool :=
  a.1 = [] && (match a.2 with | .anyV .nilAny => true | _ => false)

/-- resolveFuel is the loop of slog.Value.Resolve (log/slog, external):
up to maxLogValues = 100 LogValue indirections, then the "LogValue called
too many times" error value. -/
def resolveFuel : Nat → Value → Value
  | 0, _ => .anyV (.errVal (gs "LogValue called too many times"))
  | n + 1, v =>
    match v with
    | .logVal f => resolveFuel n (f ())
    | v => v

/-- resolve is slog.Value.Resolve with its maxLogValues = 100 bound. -/
def resolve (v : Value) : Value := resolveFuel 100 v

/-- sourceGroup from part_001 lines 51-63: the non-zero fields of a
Source as a group value. -/
def sourceGroup (fn : GoStr) (file : GoStr) (line : Int) : Value :=
  GroupValue
    ((if fn ≠ [] then [(gs "function", Value.strV fn)] else [])
      ++ (if file ≠ [] then [(gs "file", Value.strV file)] else [])
      ++ (if line ≠ 0 then [(gs "line", Value.intV line)] else []))

/-- b64Digit is the RFC 4648 standard base64 alphabet, by index. -/
def b64Digit (n : Nat) : Nat :=
  (gs "ABCDEFGHIJKLMNOPQRSTUVWXYZabcdefghijklmnopqrstuvwxyz0123456789+/").getD n 0x41

/-- base64Bytes is RFC 4648 standard base64 (encoding/json's rendering
of a byte slice, an external collaborator). -/
def base64Bytes : GoStr → GoStr
  | [] => []
  | [a] =>
    [b64Digit (a / 4), b64Digit (a % 4 * 16), 0x3D, 0x3D]
  | [a, b] =>
    [b64Digit (a / 4), b64Digit (a % 4 * 16 + b / 16), b64Digit (b % 16 * 4), 0x3D]
  | a :: b :: c :: t =>
    [b64Digit (a / 4), b64Digit (a % 4 * 16 + b / 16),
     b64Digit (b % 16 * 4 + c / 64), b64Digit (c % 64)] ++ base64Bytes t

/-- goSprintfPlusV models fmt's %+v / %v over a KindAny payload
(external collaborator): exact for nil ("<nil>") and for errors (the
error message); a stand-in for struct payloads, which no theorem below
evaluates. -/
def goSprintfPlusV : AnyVal → GoStr
  | .nilAny => gs "<nil>"
  | .errVal m => m
  | .srcVal fn file line => fn ++ [0x20] ++ file ++ [0x3A] ++ goAppendInt [] line
  | .textVal data _ => data
  | .bytesVal bs => bs
  | .levelVal l => levelString l
  | .opaqueVal txt _ => txt

/-- goJSONMarshalAny models appendJSONMarshal (part_001 lines 234-245;
a json.Encoder with SetEscapeHTML(false), final newline removed) on a
KindAny payload: null for nil, the quoted text of an
encoding.TextMarshaler, base64 for a byte slice, the quoted String()
for a slog.Level, the carried marshal result for an opaque payload. -/
def goJSONMarshalAny : AnyVal → Except GoStr GoStr
  | .nilAny => .ok (gs "null")
  | .srcVal fn file line =>
    .ok (gs "\x7b\"function\":\"" ++ escapeJSON fn ++ gs "\",\"file\":\""
      ++ escapeJSON file ++ gs "\",\"line\":" ++ goAppendInt [] line ++ gs "\x7d")
  | .textVal data err =>
    match err with
    | some e => .error e
    | none => .ok (0x22 :: escapeJSON data ++ [0x22])
  | .bytesVal bs => .ok (0x22 :: base64Bytes bs ++ [0x22])
  | .levelVal l => .ok (goQuote (levelString l))
  | .errVal _ => .ok (gs "\x7b\x7d")
  | .opaqueVal _ js => js

/-- goFmtGroup models fmt.Append on a []slog.Attr (external collaborator;
reached only through valueAppend's KindGroup case, which no theorem below
evaluates). -/
def goFmtGroup (_ : List Attr) : GoStr := gs "[]"

/-- valueAppend is the append function of part_001 lines 120-143: the
text representation of a value as fmt.Sprint would produce it.  The
bad-kind panic of its default case is unreachable: every constructor of
Value is a valid kind. -/
def valueAppend (v : Value) (dst : GoStr) : GoStr :=
  match v with
  | .strV s' => dst ++ s'
  | .intV i => goAppendInt dst i
  | .uintV u => goAppendUint dst u
  | .floatV txt _ => dst ++ txt
  | .boolV b => goAppendBool dst b
  | .durV d => dst ++ goDurationString d
  | .timeV t => dst ++ goTimeString t
  | .groupV attrs => dst ++ goFmtGroup attrs
  | .anyV a => dst ++ goSprintfPlusV a
  | .logVal _ => dst ++ gs "LogValuer"

-- Handler (src/state.go)

/-- HandlerOptions embeds slog.HandlerOptions: AddSource, Level (an
optional minimum level) and ReplaceAttr. -/
structure HandlerOptions where
  addSource : Bool := false
  level : Option Int := none
  replaceAttr : Option (List GoStr → Attr → Attr) := none

/-- GoWriter is the io.Writer sink: from the written bytes to an
optional error. -/
abbrev GoWriter := GoStr → Option GoStr

/-- Handler from state.go lines 313-329.  The sync.Mutex is an opaque
lock token (its identity is shared by reference in Go; no byte of output
depends on it). -/
structure Handler where
  json : Bool
  pretty : Bool
  safe : Bool
  sep : GoStr
  layout : GoStr
  color : LevelColorMap
  opts : HandlerOptions
  preformattedAttrs : GoStr
  groupPrefix : GoStr
  groups : List GoStr
  nOpenGroups : Nat
  buf : GoStr
  w : GoWriter
  mu : Nat

/-- Modelled from the spec: JSONSep, the JSON field separator constant —
its definition is not under src/.  JSON output is "one object per line"
with the standard key ordering, and the repository's tests require
byte-for-byte equality with log/slog's JSON handler, so the separator
between JSON members is a comma. -/
def JSONSep : GoStr := gs ","

/-- Modelled from the spec: StructSep, the delimited-text separator
constant — its definition is not under src/.  Delimited text is
"key=value pairs space-separated" and the tests require byte-for-byte
equality with log/slog's text handler, so it is a single space. -/
def StructSep : GoStr := gs " "

/-- Modelled from the spec: PrettySep, the pretty-mode separator
constant — its definition is not under src/.  The README showcase shows
fields joined by " | ". -/
def PrettySep : GoStr := gs " | "

/-- Modelled from the spec: DefaultDateTimeLayout, the non-pretty time
layout constant — its definition is not under src/.  Its exact value
reaches output only through the external layout formatter, which is a
stand-in here. -/
def DefaultDateTimeLayout : GoStr := gs "15:04:05 Mon 02 Jan 2006"

/-- Modelled from the spec: DefaultPrettyDateTimeLayout, the pretty time
layout constant — its definition is not under src/.  The README showcase
shows times like "05:26:24 Fri 26 Jul 2024". -/
def DefaultPrettyDateTimeLayout : GoStr := gs "15:04:05 Mon 02 Jan 2006"

/-- NewHandler from state.go lines 335-359: the manual pretty
constructor; empty layout, separator and nil color map fall back to the
pretty defaults, a nil opts pointer to the zero options. -/
def NewHandler (w : GoWriter) (color : Option LevelColorMap) (safe : Bool)
    (layout : GoStr) (sep : GoStr) (opts : Option HandlerOptions) : Handler :=
  { json := false, pretty := true, safe := safe
    sep := if sep = [] then PrettySep else sep
    layout := if layout = [] then DefaultPrettyDateTimeLayout else layout
    color := color.getD DefaultColorMap
    opts := opts.getD {}
    preformattedAttrs := [], groupPrefix := [], groups := [], nOpenGroups := 0
    buf := [], w := w, mu := 0 }

/-- NewPrettyHandler from state.go lines 363-378. -/
def NewPrettyHandler (w : GoWriter) (opts : Option HandlerOptions) : Handler :=
  { json := false, pretty := true, safe := false
    color := DefaultColorMap, layout := DefaultPrettyDateTimeLayout
    sep := PrettySep, w := w, opts := opts.getD {}
    preformattedAttrs := [], groupPrefix := [], groups := [], nOpenGroups := 0
    buf := [], mu := 0 }

/-- NewJSONHandler from state.go lines 381-395.  The layout field is
absent from the source's composite literal, so it is the zero string. -/
def NewJSONHandler (w : GoWriter) (opts : Option HandlerOptions) : Handler :=
  { json := true, pretty := false, safe := true
    color := EmptyColorMap, sep := JSONSep, w := w, opts := opts.getD {}
    layout := []
    preformattedAttrs := [], groupPrefix := [], groups := [], nOpenGroups := 0
    buf := [], mu := 0 }

/-- NewStructHandler from state.go lines 398-411.  The color and layout
fields are absent from the source's composite literal, so they are the
zero map and the zero string. -/
def NewStructHandler (w : GoWriter) (opts : Option HandlerOptions) : Handler :=
  { json := false, pretty := false, safe := true
    sep := StructSep, w := w, opts := opts.getD {}
    color := [], layout := []
    preformattedAttrs := [], groupPrefix := [], groups := [], nOpenGroups := 0
    buf := [], mu := 0 }

/-- Enabled from state.go lines 413-419: level at least the configured
minimum, defaulting to LevelFx. -/
def Enabled (h : Handler) (level : Int) : Bool :=
  level ≥ h.opts.level.getD LevelFx

/-- attrSep from state.go lines 529-535. -/
def attrSep (h : Handler) : GoStr :=
  if h.json then JSONSep else h.sep

/-- clone from state.go lines 515-526, field for field: the composite
literal names json, opts, preformattedAttrs, groupPrefix, groups,
nOpenGroups, w and mu; every other field of the clone is its Go zero
value (slices.Clip only trims capacity, which values do not have). -/
def clone (h : Handler) : Handler :=
  { json := h.json, opts := h.opts
    preformattedAttrs := h.preformattedAttrs
    groupPrefix := h.groupPrefix, groups := h.groups
    nOpenGroups := h.nOpenGroups, w := h.w, mu := h.mu
    pretty := false, safe := false, sep := [], layout := [], color := []
    buf := [] }

-- handleState (src/state.go lines 19-228)

/-- noColor from state.go line 54. -/
def noColor : Int := -1

/-- HState is handleState from state.go lines 22-30: the per-call
formatting state.  freeBuf and the buffer pool manage memory only and
are not modelled; groups is the pool-allocated open-group list, present
exactly when ReplaceAttr is configured. -/
structure HState where
  h : Handler
  buf : GoStr
  color : Int
  sep : GoStr
  pfx : GoStr
  groups : Option (List GoStr)

/-- newHandleState from state.go lines 37-51: fresh state over the given
buffer and separator, color noColor, empty prefix, and — only when
ReplaceAttr is configured — the first nOpenGroups bound group names. -/
def newHandleState (h : Handler) (buf : GoStr) (sep : GoStr) : HState :=
  { h := h, buf := buf, color := noColor, sep := sep, pfx := []
    groups := if h.opts.replaceAttr.isSome then some (h.groups.take h.nOpenGroups) else none }

/-- resetColor from state.go lines 56-58. -/
def resetColor (s : HState) : HState := { s with color := noColor }

/-- appendString from state.go lines 182-199: JSON mode always writes a
quoted JSON-escaped string; text modes quote with strconv only when the
string needs quoting and the handler is safe, write through the color
printer when a color is active, and copy the raw bytes otherwise. -/
def appendString (s : HState) (str : GoStr) : HState :=
  if s.h.json then
    { s with buf := (appendEscapedJSONString (s.buf ++ [0x22]) str) ++ [0x22] }
  else
    if needsQuoting str && s.h.safe then
      { s with buf := s.buf ++ goQuote str }
    else
      if s.color > noColor then
        { s with buf := colorFprint s.color s.buf str }
      else
        { s with buf := s.buf ++ str }

/-- appendError from state.go lines 160-162: the "!ERROR:" marker with
the error's message, through appendString. -/
def appendError (s : HState) (err : GoStr) : HState :=
  appendString s (gs "!ERROR:" ++ err)

/-- appendKey from state.go lines 164-180: the pending separator, then —
only outside pretty mode — the prefixed key through appendString followed
by ':' (JSON) or '=' (text); finally the separator becomes attrSep. -/
def appendKey (s : HState) (key : GoStr) : HState :=
  let s0 := { s with buf := s.buf ++ s.sep }
  let s1 :=
    if ¬s.h.pretty then
      let s1a :=
        if s0.pfx.length > 0 then appendString s0 (s0.pfx ++ key)
        else appendString s0 key
      { s1a with buf := s1a.buf ++ [if s.h.json then 0x3A else 0x3D] }
    else s0
  { s1 with sep := attrSep s.h }

/-- keyComponentSep from state.go line 78. -/
def keyComponentSep : Nat := 0x2E

/-- openGroup from state.go lines 82-95. -/
def openGroup (s : HState) (name : GoStr) : HState :=
  let s1 :=
    if s.h.json then
      let sk := appendKey s name
      { sk with buf := sk.buf ++ [0x7B], sep := [] }
    else
      { s with pfx := s.pfx ++ name ++ [keyComponentSep] }
  { s1 with groups := s1.groups.map (fun l => l ++ [name]) }

/-- closeGroup from state.go lines 98-108. -/
def closeGroup (s : HState) (name : GoStr) : HState :=
  let s1 :=
    if s.h.json then { s with buf := s.buf ++ [0x7D] }
    else { s with pfx := s.pfx.take (s.pfx.length - name.length - 1) }
  { s1 with sep := attrSep s.h
            groups := s1.groups.map (fun l => l.take (l.length - 1)) }

/-- openGroups from state.go lines 71-75: opens the bound groups not yet
materialized into the preformatted bytes. -/
def openGroups (s : HState) : HState :=
  (s.h.groups.drop s.h.nOpenGroups).foldl openGroup s

/-- appendJSONTime from part_001 lines 187-196: a year outside [0,9999]
first appends the inline error marker — and the function then falls
through and appends the RFC3339Nano-formatted time in quotes in every
case (the source has no else after the year check). -/
def appendJSONTime (s : HState) (t : OTime) : HState :=
  let s1 :=
    if t.year < 0 ∨ 10000 ≤ t.year then
      appendError s (gs "time.Time year outside of range [0,9999]")
    else s
  { s1 with buf := rfc3339NanoBytes (s1.buf ++ [0x22]) t ++ [0x22] }

/-- writeLayoutTime from state.go lines 226-228. -/
def writeLayoutTime (s : HState) (t : OTime) : HState :=
  { s with buf := s.buf ++ goTimeAppendFormat [] t s.h.layout }

/-- appendTime from state.go lines 214-222. -/
def appendTime (s : HState) (t : OTime) : HState :=
  if s.h.json then appendJSONTime s t
  else if s.h.pretty then writeLayoutTime s t
  else { s with buf := writeTimeRFC3339Millis s.buf t }

/-- appendJSONValueE is appendJSONValue from part_001 lines 198-232,
with the returned error made explicit: the state it produced and the
error it returned.  The bad-kind panics of its group and logvaluer
cases are modelled as returning the state unchanged; appendAttr handles
groups before calling appendValue and resolves logvaluers away, so
neither case is reachable from the handler. -/
def appendJSONValueE (s : HState) (v : Value) : Option GoStr × HState :=
  match v with
  | .strV str => (none, appendString s str)
  | .intV i => (none, { s with buf := goAppendInt s.buf i })
  | .uintV u => (none, { s with buf := goAppendUint s.buf u })
  | .floatV _ js =>
    match js with
    | .ok bs => (none, { s with buf := s.buf ++ bs })
    | .error e => (some e, s)
  | .boolV b => (none, { s with buf := goAppendBool s.buf b })
  | .durV d => (none, { s with buf := goAppendInt s.buf d })
  | .timeV t => (none, appendTime s t)
  | .anyV a =>
    match a with
    | .errVal m => (none, appendString s m)
    | a =>
      match goJSONMarshalAny a with
      | .ok bs => (none, { s with buf := s.buf ++ bs })
      | .error e => (some e, s)
  | .groupV _ => (none, s)
  | .logVal _ => (none, s)

/-- appendTextValueE is appendTextValue from part_001 lines 86-116, with
the returned error made explicit: a TextMarshaler's text (or its error),
the byte-slice fast path (raw in unsafe pretty mode, strconv-quoted
otherwise), fmt %+v for other Any payloads, and the generic append
function for the remaining kinds. -/
def appendTextValueE (s : HState) (v : Value) : Option GoStr × HState :=
  match v with
  | .strV str => (none, appendString s str)
  | .timeV t => (none, appendTime s t)
  | .anyV a =>
    match a with
    | .textVal data err =>
      match err with
      | some e => (some e, s)
      | none => (none, appendString s data)
    | .levelVal l => (none, appendString s (levelString l))
    | .bytesVal bs =>
      if ¬s.h.safe ∧ s.h.pretty then (none, { s with buf := s.buf ++ bs })
      else (none, { s with buf := s.buf ++ goQuote bs })
    | a => (none, appendString s (goSprintfPlusV a))
  | v => (none, { s with buf := valueAppend v s.buf })

/-- appendValue from state.go lines 201-212: dispatch on json, and embed
any returned formatting error inline through appendError. -/
def appendValue (s : HState) (v : Value) : HState :=
  let r := if s.h.json then appendJSONValueE s v else appendTextValueE s v
  match r.1 with
  | some e => appendError r.2 e
  | none => r.2

/-- isGroupKind is Value.Kind() == KindGroup. -/
def isGroupKind : Value → Bool
  | .groupV _ => true
  | _ => false

/-- appendAttr from state.go lines 114-158, with explicit recursion
fuel: the Go source recurses through values returned by ReplaceAttr and
LogValue, which nothing bounds (an adversarial callback overflows the Go
stack), so the embedding consumes one unit of fuel per group nesting
level and returns the state unchanged at zero.  Every theorem below
holds for every fuel large enough for its input.  The body follows the
source: ReplaceAttr (for non-group kinds, on the resolved value, seeing
the current open-group list), resolve, elide the canonical empty attr,
rewrite a *slog.Source payload, then either walk a non-empty group
(inlining an empty key, opening and closing a named one) or write
key and value. -/
def appendAttr : Nat → HState → Attr → HState
  | 0, s, _ => s
  | fuel + 1, s, a0 =>
    let a1 :=
      match s.h.opts.replaceAttr with
      | some rep =>
        if ¬isGroupKind a0.2 then rep (s.groups.getD []) (a0.1, resolve a0.2)
        else a0
      | none => a0
    let a : Attr := (a1.1, resolve a1.2)
    if isEmpty a then s
    else
      let a : Attr :=
        match a.2 with
        | .anyV (.srcVal fn file line) =>
          if s.h.json then (a.1, sourceGroup fn file line)
          else (a.1, .strV (file ++ [0x3A] ++ goAppendInt [] line))
        | _ => a
      match a.2 with
      | .groupV attrs =>
        if attrs.length > 0 then
          let s1 := if a.1 ≠ [] then openGroup s a.1 else s
          let s2 := attrs.foldl (appendAttr fuel) s1
          if a.1 ≠ [] then closeGroup s2 a.1 else s2
        else s
      | v => appendValue (appendKey s a.1) v

/-- appendAttrList folds appendAttr over a list of attributes with the
same fuel, the iteration pattern of WithAttrs and appendNonBuiltIns. -/
def appendAttrList (fuel : Nat) (s : HState) (as' : List Attr) : HState :=
  as'.foldl (appendAttr fuel) s

-- Records (log/slog, external collaborator)

/-- Record embeds slog.Record: time, level, message, the attribute
sequence, and — in place of the program counter the Go record carries —
the source frame the runtime would resolve it to (an external
collaborator; only AddSource output reads it). -/
structure Record where
  time : OTime
  level : Int
  message : GoStr
  attrs : List Attr
  frameFn : GoStr := []
  frameFile : GoStr := []
  frameLine : Int := 0

/-- NewRecord is slog.NewRecord: a record with no attributes. -/
def NewRecord (t : OTime) (level : Int) (msg : GoStr) : Record :=
  { time := t, level := level, message := msg, attrs := [] }

/-- recordAddAttrs is slog.Record.AddAttrs (log/slog, an external
collaborator): appends the attributes, omitting empty groups. -/
def recordAddAttrs (r : Record) (as' : List Attr) : Record :=
  { r with attrs := r.attrs ++ as'.filter (fun a => !isEmptyGroup a.2) }

/-- rSource from part_001 lines 69-77: the Source for the record's
frame (resolved by the Go runtime; the embedding's record carries it). -/
def rSource (r : Record) : AnyVal :=
  .srcVal r.frameFn r.frameFile r.frameLine

/-- appendNonBuiltIns from state.go lines 265-293: the preformatted
bound attributes verbatim behind one separator; then, only when the
record has attributes, the bound group prefix and the not-yet-open bound
groups followed by the record's attributes; JSON mode finally closes the
opened groups and the top-level object. -/
def appendNonBuiltIns (fuel : Nat) (s : HState) (r : Record) : HState :=
  let s1 :=
    if s.h.preformattedAttrs.length > 0 then
      { s with buf := s.buf ++ s.sep ++ s.h.preformattedAttrs, sep := attrSep s.h }
    else s
  let opened :=
    if r.attrs.length > 0 then
      let sa := { s1 with pfx := s1.pfx ++ s.h.groupPrefix }
      (appendAttrList fuel (openGroups sa) r.attrs, s.h.groups.length)
    else (s1, s.h.nOpenGroups)
  if s.h.json then
    { opened.1 with buf := opened.1.buf ++ List.replicate opened.2 0x7D ++ [0x7D] }
  else opened.1

/-- HandleCore is the body of Handle from state.go lines 421-477 up to
the write: fresh state with an empty separator, the opening brace in
JSON mode, the built-in time (skipped when zero), level (with its color
from the color map), optional source and message fields — each routed
through ReplaceAttr when configured, with the groups list hidden while
the built-ins are appended — then appendNonBuiltIns and the trailing
newline. -/
def HandleCore (fuel : Nat) (h : Handler) (r : Record) : HState :=
  let state0 := newHandleState h [] []
  let state1 := if h.json then { state0 with buf := state0.buf ++ [0x7B] } else state0
  let stateGroups := state1.groups
  let state2 := { state1 with groups := none }
  let rep := h.opts.replaceAttr
  let state3 :=
    if ¬r.time.isZero then
      match rep with
      | none => appendTime (appendKey state2 (gs "time")) r.time
      | some _ => appendAttr fuel state2 (gs "time", Value.timeV r.time)
    else state2
  let state4 := { state3 with color := GetColor h.color r.level }
  let state5 :=
    match rep with
    | none => appendString (appendKey state4 (gs "level")) (GetLevelName r.level)
    | some _ => appendAttr fuel state4 (gs "level", Value.anyV (AnyVal.levelVal r.level))
  let state6 := resetColor state5
  let state7 :=
    if h.opts.addSource then
      appendAttr fuel state6 (gs "source", Value.anyV (rSource r))
    else state6
  let state8 :=
    match rep with
    | none => appendString (appendKey state7 (gs "msg")) r.message
    | some _ => appendAttr fuel state7 (gs "msg", Value.strV r.message)
  let state9 := { state8 with groups := stateGroups }
  let state10 := appendNonBuiltIns fuel state9 r
  { state10 with buf := state10.buf ++ [0x0A] }

/-- handleOutput is the byte string Handle writes to the sink for a
record: the buffer HandleCore produced. -/
def handleOutput (fuel : Nat) (h : Handler) (r : Record) : GoStr :=
  (HandleCore fuel h r).buf

/-- Handle from state.go lines 421-477: format the record, then write
the buffer to the sink under the shared lock (the lock serializes
writes only and is not modelled) and return the write's error. -/
def Handle (fuel : Nat) (h : Handler) (r : Record) : Option GoStr :=
  h.w (HandleCore fuel h r).buf

/-- WithAttrs from state.go lines 481-506: the same handler when every
attribute is an empty group; otherwise a clone whose preformatted bytes
are extended — under the bound group prefix and after opening any
pending bound groups — with the new attributes, remembering the new
prefix and that every bound group is now open. -/
def WithAttrs (fuel : Nat) (h : Handler) (attrs : List Attr) : Handler :=
  if countEmptyGroups attrs = attrs.length then h
  else
    let h2 := clone h
    let st0 := newHandleState h2 h2.preformattedAttrs []
    let st1 := { st0 with pfx := st0.pfx ++ h.groupPrefix }
    let st2 := if h2.preformattedAttrs.length > 0 then { st1 with sep := attrSep h } else st1
    let st3 := openGroups st2
    let st4 := appendAttrList fuel st3 attrs
    { h2 with preformattedAttrs := st4.buf
              groupPrefix := st4.pfx
              nOpenGroups := h2.groups.length }

/-- WithGroup from state.go lines 509-513: a clone with the name
appended to its groups. -/
def WithGroup (h : Handler) (name : GoStr) : Handler :=
  let h2 := clone h
  { h2 with groups := h2.groups ++ [name] }

/-- wOk is a sink whose writes always succeed (the bytes buffer of the
repository's tests). -/
def wOk : GoWriter := fun _ => none

-- Claims

/-- rC1 is the record of claim C1: zero time, level Info, message
"Service started successfully", one attribute module="PaymentService"
added through AddAttrs. -/
def rC1 : Record :=
  recordAddAttrs (NewRecord otimeZero LevelInfo (gs "Service started successfully"))
    [(gs "module", Value.strV (gs "PaymentService"))]

/-- outC1 is the line the JSON handler actually produces for rC1: the
record's time is zero, so Handle skips the time key entirely
(state.go line 434 guards on record.Time.IsZero). -/
def outC1 : GoStr :=
  gs "\x7b\"level\":\"INFO\",\"msg\":\"Service started successfully\",\"module\":\"PaymentService\"\x7d\n"

/-- C1, counterexample: the claimed line prints the zero time as
"0001-01-01T00:00:00Z", but Handle emits no time key at all for a
zero-time record; the actual line starts with the level key. -/
theorem C1_zero_time_line_counterexample :
    handleOutput 100 (NewJSONHandler wOk none) rC1 ≠
      gs "\x7b\"time\":\"0001-01-01T00:00:00Z\",\"level\":\"INFO\",\"msg\":\"Service started successfully\",\"module\":\"PaymentService\"\x7d\n" := by
  have h : handleOutput 100 (NewJSONHandler wOk none) rC1 = outC1 := by
    simp [handleOutput, HandleCore, NewJSONHandler, newHandleState, appendKey, appendString,
      appendTime, appendNonBuiltIns, appendAttrList, appendAttr.eq_def, appendValue,
      appendJSONValueE, appendTextValueE, appendError, openGroups, openGroup, closeGroup,
      resetColor, attrSep, JSONSep, GetColor, GetLevelName, levelString, LevelFx, LevelFxError,
      LevelInfo, LevelDebug, LevelWarning, LevelError, recordAddAttrs, NewRecord, rC1,
      isEmpty, isEmptyGroup, isGroupKind, resolve, resolveFuel, GroupValue,
      escapeJSON.eq_def, appendEscapedJSONString, safeSet, gs, utf8EncodeChar, hexDigit, hex,
      OTime.isZero, otimeZero, noColor, EmptyColorMap, outC1]
  rw [h]
  decide

/-- C1, amended: emitting the record of the claim — level Info, message
"Service started successfully", the single attribute
module="PaymentService", zero time — through a JSON handler built with
default options produces exactly the single line
`{"level":"INFO","msg":"Service started successfully","module":"PaymentService"}`
followed by one newline, in that key order; the zero time is omitted. -/
theorem C1_json_line_zero_time_omitted :
    handleOutput 100 (NewJSONHandler wOk none) rC1 = outC1 := by
  simp [handleOutput, HandleCore, NewJSONHandler, newHandleState, appendKey, appendString,
    appendTime, appendNonBuiltIns, appendAttrList, appendAttr.eq_def, appendValue,
    appendJSONValueE, appendTextValueE, appendError, openGroups, openGroup, closeGroup,
    resetColor, attrSep, JSONSep, GetColor, GetLevelName, levelString, LevelFx, LevelFxError,
    LevelInfo, LevelDebug, LevelWarning, LevelError, recordAddAttrs, NewRecord, rC1,
    isEmpty, isEmptyGroup, isGroupKind, resolve, resolveFuel, GroupValue,
    escapeJSON.eq_def, appendEscapedJSONString, safeSet, gs, utf8EncodeChar, hexDigit, hex,
    OTime.isZero, otimeZero, noColor, EmptyColorMap, outC1]

/-- C2, code bug: clone (state.go lines 515-526) copies only json, opts,
preformattedAttrs, groupPrefix, groups, nOpenGroups, w and mu; the
pretty, safe, sep, layout and color configuration fields of the new
handler fall back to their zero values, so a handler derived by
WithGroup (or WithAttrs) from a pretty handler is no longer pretty, is
no longer safe, and has an empty separator, layout and color map —
against the spec's "shallow clone that copies the small scalar config
fields". -/
theorem C2_clone_drops_config_fields :
    (WithGroup (NewHandler wOk none true [] [] none) (gs "g")).pretty = false
      ∧ (NewHandler wOk none true [] [] none).pretty = true
      ∧ (WithGroup (NewHandler wOk none true [] [] none) (gs "g")).safe = false
      ∧ (NewHandler wOk none true [] [] none).safe = true
      ∧ (WithGroup (NewHandler wOk none true [] [] none) (gs "g")).sep = []
      ∧ (NewHandler wOk none true [] [] none).sep = PrettySep
      ∧ (WithGroup (NewHandler wOk none true [] [] none) (gs "g")).layout = []
      ∧ (NewHandler wOk none true [] [] none).layout = DefaultPrettyDateTimeLayout
      ∧ (WithGroup (NewHandler wOk none true [] [] none) (gs "g")).color = []
      ∧ (NewHandler wOk none true [] [] none).color = DefaultColorMap := by
  refine ⟨rfl, ?_, rfl, ?_, rfl, ?_, rfl, ?_, rfl, ?_⟩ <;>
    simp [NewHandler]

/-- hC3 is a pretty handler whose color map sends Info to noColor, so
the level value prints without SGR wrapping; explicit layout and
separator (" "). -/
def hC3 : Handler :=
  NewHandler wOk (some [(LevelInfo, -1)]) false (gs "L") (gs " ") none

/-- rC3 is a zero-time Info record with message "hello" and the single
attribute a="v". -/
def rC3 : Record :=
  recordAddAttrs (NewRecord otimeZero LevelInfo (gs "hello"))
    [(gs "a", Value.strV (gs "v"))]

/-- C3, counterexample: in pretty mode appendKey writes no key and no
'=' (state.go line 166 guards the whole key/'=' block on !pretty), so
the pretty output of a record with attribute a="v" is "INFO hello v\n" —
bare values joined by the separator — and contains no '=' byte at all,
against the claimed key=value shape. -/
theorem C3_pretty_no_key_counterexample :
    handleOutput 100 hC3 rC3 = gs "INFO hello v\n"
      ∧ ¬ (0x3D ∈ handleOutput 100 hC3 rC3) := by
  have h : handleOutput 100 hC3 rC3 = gs "INFO hello v\n" := by
    simp [handleOutput, HandleCore, hC3, NewHandler, newHandleState, appendKey, appendString,
      appendTime, appendNonBuiltIns, appendAttrList, appendAttr.eq_def, appendValue,
      appendJSONValueE, appendTextValueE, appendError, openGroups, openGroup, closeGroup,
      resetColor, attrSep, GetColor, GetLevelName, levelString, LevelFx, LevelFxError,
      LevelInfo, LevelDebug, LevelWarning, LevelError, recordAddAttrs, NewRecord, rC3,
      isEmpty, isEmptyGroup, isGroupKind, resolve, resolveFuel, GroupValue,
      needsQuoting, needsQuotingLoop.eq_def, safeSet, gs, utf8EncodeChar,
      OTime.isZero, otimeZero, noColor]
  refine ⟨h, ?_⟩
  rw [h]
  decide

/-- C3, amended: in pretty mode appendKey emits only the pending
separator — no key bytes and no '=' — and resets the separator; in
delimited (non-pretty, non-JSON) text mode it emits the separator, the
dot-prefixed key (strconv-quoted when it needs quoting under a safe
handler, color-wrapped when a color is active) and '='; and a string
value written while a color is active is wrapped in that color's SGR
codes. -/
theorem C3_pretty_value_only_shape (s : HState) (k str : GoStr) :
    (s.h.pretty = true →
      appendKey s k = { s with buf := s.buf ++ s.sep, sep := attrSep s.h })
    ∧ (s.h.pretty = false → s.h.json = false →
        (appendKey s k).buf = s.buf ++ s.sep ++
          (if needsQuoting (s.pfx ++ k) && s.h.safe then goQuote (s.pfx ++ k)
           else if s.color > noColor then
             gs "\x1b[" ++ goAppendInt [] s.color ++ gs "m" ++ (s.pfx ++ k) ++ gs "\x1b[0m"
           else s.pfx ++ k) ++ [0x3D])
    ∧ (s.h.json = false → (needsQuoting str && s.h.safe) = false → s.color > noColor →
        (appendString s str).buf =
          s.buf ++ gs "\x1b[" ++ goAppendInt [] s.color ++ gs "m" ++ str ++ gs "\x1b[0m") := by
  refine ⟨fun hp => ?_, fun hp hj => ?_, fun hj hq hc => ?_⟩
  · simp [appendKey, hp]
  · by_cases hpfx : s.pfx.length > 0
    · simp [appendKey, hp, hj, appendString, colorFprint, hpfx]
      split_ifs <;> simp_all [List.append_assoc]
    · have hnil : s.pfx = [] := by
        cases hc : s.pfx
        · rfl
        · rw [hc] at hpfx; simp at hpfx
      simp [appendKey, hp, hj, appendString, colorFprint, hpfx, hnil]
      split_ifs <;> simp_all [List.append_assoc]
  · simp [appendString, hj, hq, hc, colorFprint]

/-- C3 witness: the pretty-mode conjunct at a fresh pretty state. -/
theorem C3_pretty_value_only_shape_witness :
    appendKey (newHandleState (NewPrettyHandler wOk none) [] []) (gs "a")
      = { newHandleState (NewPrettyHandler wOk none) [] [] with
          buf := [], sep := attrSep (NewPrettyHandler wOk none) } := by
  have h := (C3_pretty_value_only_shape
    (newHandleState (NewPrettyHandler wOk none) [] []) (gs "a") []).1 rfl
  simpa [newHandleState, NewPrettyHandler] using h

/-- sC4 is a fresh handle state over the struct (delimited-text) handler,
which is safe. -/
def sC4 : HState := newHandleState (NewStructHandler wOk none) [] []

/-- C4, counterexample: the claim says that with the safe flag on the
string is always written with the standard quoted escape, but the source
quotes only when needsQuoting is also true (state.go line 189): the
struct handler (safe on, non-pretty) writes "abc" verbatim, not
"\"abc\"". -/
theorem C4_safe_no_quote_counterexample :
    (appendString sC4 (gs "abc")).buf = gs "abc"
      ∧ gs "abc" ≠ goQuote (gs "abc") := by
  have hq : needsQuoting (gs "abc") = false := by
    simp [needsQuoting, needsQuotingLoop.eq_def, gs, utf8EncodeChar, safeSet]
  refine ⟨?_, ?_⟩
  · simp [sC4, appendString, NewStructHandler, newHandleState, hq, noColor]
  · have h : goQuote (gs "abc") = gs "\"abc\"" := by
      simp [goQuote, goQuoteBody.eq_def, gs, utf8EncodeChar]
    rw [h]
    decide

/-- C4, amended: in the text modes the string is written with the host
language's standard quoted escape exactly when quoting is required AND
the handler's safe flag is on; in every other case — quoting not
required, or the safe flag off, whatever the mode — the raw string is
written verbatim (wrapped in the active color's SGR codes when a color
is set). -/
theorem C4_text_quote_iff_needed_and_safe (s : HState) (str : GoStr)
    (hj : s.h.json = false) :
    (needsQuoting str = true → s.h.safe = true →
      (appendString s str).buf = s.buf ++ goQuote str)
    ∧ ((needsQuoting str = false ∨ s.h.safe = false) →
        (appendString s str).buf =
          if s.color > noColor
          then s.buf ++ gs "\x1b[" ++ goAppendInt [] s.color ++ gs "m" ++ str ++ gs "\x1b[0m"
          else s.buf ++ str) := by
  constructor
  · intro h1 h2
    simp [appendString, hj, h1, h2]
  · intro h1
    have hq : (needsQuoting str && s.h.safe) = false := by
      rcases h1 with h | h <;> simp [h]
    simp only [appendString, hj, if_false, Bool.false_eq_true, hq, colorFprint]
    split <;> simp [List.append_assoc]

/-- C4 witness: the quoting conjunct at the struct handler with a string
that needs quoting (a single space). -/
theorem C4_text_quote_iff_needed_and_safe_witness :
    (appendString sC4 (gs " ")).buf = sC4.buf ++ goQuote (gs " ") := by
  have hq : needsQuoting (gs " ") = true := by
    simp [needsQuoting, needsQuotingLoop.eq_def, gs, utf8EncodeChar, safeSet]
  exact (C4_text_quote_iff_needed_and_safe sC4 (gs " ") rfl).1 hq rfl

/-- rC6 is a zero-time Info record whose only attribute is a group "g"
holding only the canonical empty attribute (GroupValue keeps it: only
empty groups are removed at construction). -/
def rC6 : Record :=
  recordAddAttrs (NewRecord otimeZero LevelInfo (gs "m"))
    [(gs "g", GroupValue [([], Value.anyV AnyVal.nilAny)])]

/-- rC6none is the same record with no attributes. -/
def rC6none : Record := NewRecord otimeZero LevelInfo (gs "m")

/-- C6, counterexample: the group "g" contains zero non-empty attributes
after recursive flattening (its only member is the canonical empty
attr), yet JSON emission opens it — appendAttr only checks len(attrs)>0
(state.go line 142) — emitting "g":{} where the claim requires output
identical to the attribute-free record. -/
theorem C6_group_of_empties_opened_counterexample :
    handleOutput 100 (NewJSONHandler wOk none) rC6
        = gs "\x7b\"level\":\"INFO\",\"msg\":\"m\",\"g\":\x7b\x7d\x7d\n"
      ∧ handleOutput 100 (NewJSONHandler wOk none) rC6none
        = gs "\x7b\"level\":\"INFO\",\"msg\":\"m\"\x7d\n"
      ∧ handleOutput 100 (NewJSONHandler wOk none) rC6
        ≠ handleOutput 100 (NewJSONHandler wOk none) rC6none := by
  have h1 : handleOutput 100 (NewJSONHandler wOk none) rC6
      = gs "\x7b\"level\":\"INFO\",\"msg\":\"m\",\"g\":\x7b\x7d\x7d\n" := by
    simp [handleOutput, HandleCore, NewJSONHandler, newHandleState, appendKey, appendString,
      appendTime, appendNonBuiltIns, appendAttrList, appendAttr.eq_def, appendValue,
      appendJSONValueE, appendTextValueE, appendError, openGroups, openGroup, closeGroup,
      resetColor, attrSep, JSONSep, GetColor, GetLevelName, levelString, LevelFx, LevelFxError,
      LevelInfo, LevelDebug, LevelWarning, LevelError, recordAddAttrs, NewRecord, rC6,
      isEmpty, isEmptyGroup, isGroupKind, resolve, resolveFuel, GroupValue,
      escapeJSON.eq_def, appendEscapedJSONString, safeSet, gs, utf8EncodeChar,
      OTime.isZero, otimeZero, noColor, EmptyColorMap]
  have h2 : handleOutput 100 (NewJSONHandler wOk none) rC6none
      = gs "\x7b\"level\":\"INFO\",\"msg\":\"m\"\x7d\n" := by
    simp [handleOutput, HandleCore, NewJSONHandler, newHandleState, appendKey, appendString,
      appendTime, appendNonBuiltIns, appendAttrList, appendAttr.eq_def, appendValue,
      appendJSONValueE, appendTextValueE, appendError, openGroups, openGroup, closeGroup,
      resetColor, attrSep, JSONSep, GetColor, GetLevelName, levelString, LevelFx, LevelFxError,
      LevelInfo, LevelDebug, LevelWarning, LevelError, NewRecord, rC6none,
      isEmpty, isEmptyGroup, isGroupKind, resolve, resolveFuel,
      escapeJSON.eq_def, appendEscapedJSONString, safeSet, gs, utf8EncodeChar,
      OTime.isZero, otimeZero, noColor, EmptyColorMap]
  refine ⟨h1, h2, ?_⟩
  rw [h1, h2]
  decide

/-- C6, amended: a group attribute whose attribute list is empty is
never opened — appendAttr returns the state untouched for it, in every
mode and at every fuel — and a record to which AddAttrs was asked to add
only an empty group is unchanged (AddAttrs omits empty groups), so its
emitted output is byte-identical to the record without that attribute;
but a group whose list is non-empty is opened even when all its members
elide, so suppression is not recursive. -/
theorem C6_empty_group_never_opened :
    (∀ (fuel : Nat) (s : HState) (k : GoStr),
        appendAttr fuel s (k, Value.groupV []) = s)
    ∧ (∀ (fuel : Nat) (h : Handler) (r : Record) (k : GoStr),
        recordAddAttrs r [(k, Value.groupV [])] = r
          ∧ handleOutput fuel h (recordAddAttrs r [(k, Value.groupV [])])
              = handleOutput fuel h r) := by
  have hadd : ∀ (r : Record) (k : GoStr),
      recordAddAttrs r [(k, Value.groupV [])] = r := by
    intro r k
    simp [recordAddAttrs, isEmptyGroup]
  constructor
  · intro fuel s k
    match fuel with
    | 0 => rfl
    | fuel + 1 =>
      cases hrep : s.h.opts.replaceAttr <;>
        simp [appendAttr, hrep, isGroupKind, resolve, resolveFuel, isEmpty]
  · intro fuel h r k
    exact ⟨hadd r k, by rw [hadd r k]⟩

/-- sC7 is a fresh handle state over the JSON handler. -/
def sC7 : HState := newHandleState (NewJSONHandler wOk none) [] []

/-- tC7 is a timestamp with year 10000, outside [0,9999]. -/
def tC7 : OTime := ⟨10000, 1, 1, 0, 0, 0, 0, 0⟩

/-- C7, counterexample: for a year outside [0,9999] appendJSONTime
appends the inline error marker and then still appends the formatted
time — part_001's year check has no else, so the function falls through
— producing the marker followed by "10000-01-01T00:00:00Z" in quotes,
not the marker "in place of" the value. -/
theorem C7_marker_then_time_counterexample :
    (appendJSONTime sC7 tC7).buf
        = gs "\"!ERROR:time.Time year outside of range [0,9999]\"\"10000-01-01T00:00:00Z\""
      ∧ gs "\"!ERROR:time.Time year outside of range [0,9999]\"\"10000-01-01T00:00:00Z\""
          ≠ gs "\"!ERROR:time.Time year outside of range [0,9999]\"" := by
  refine ⟨?_, by decide⟩
  simp [appendJSONTime, sC7, tC7, appendError, appendString, NewJSONHandler, newHandleState,
    appendEscapedJSONString, escapeJSON.eq_def, safeSet, gs, utf8EncodeChar,
    rfc3339NanoBytes, writePosIntWidth, padZeros, natDecimal.eq_def, trimRightZeros,
    hexDigit, hex]

/-- C7, amended: in JSON mode a timestamp whose year is outside
[0,9999] makes appendJSONTime write the inline
"!ERROR:time.Time year outside of range [0,9999]" marker string and then
still write the RFC3339Nano-formatted time value in quotes (the source's
year check has no else), after which emission of the record continues
normally. -/
theorem C7_out_of_range_year_marker (s : HState) (t : OTime)
    (h : t.year < 0 ∨ 10000 ≤ t.year) :
    appendJSONTime s t =
      { appendError s (gs "time.Time year outside of range [0,9999]") with
        buf := rfc3339NanoBytes
          ((appendError s (gs "time.Time year outside of range [0,9999]")).buf ++ [0x22]) t
          ++ [0x22] } := by
  simp [appendJSONTime, h]

/-- needsQuotingLoop_eq_any: the early-return loop of needsQuoting
equals an existential (any) over the rune positions it visits. -/
theorem needsQuotingLoop_eq_any (s : GoStr) :
    needsQuotingLoop s = (runePositions s).any quotingBad := by
  induction s using needsQuotingLoop.induct with
  | case1 => simp [needsQuotingLoop, runePositions]
  | case2 b rest h hcond =>
    rw [needsQuotingLoop, runePositions]
    simp only [List.any_cons, quotingBad, h, if_pos, hcond, if_true, decide_eq_true_eq]
    rcases hcond.2 with hc | hc | hc <;> simp [hcond.1, hc]
  | case3 b rest h hcond ih =>
    rw [needsQuotingLoop, runePositions]
    simp [h, hcond, quotingBad, ih]
  | case4 b rest h d hcond =>
    rw [needsQuotingLoop, runePositions]
    rcases hcond with hc | hc | hc
    · have hc2 : (decodeRuneInString (b :: rest)).1 = RuneError := hc
      simp [h, quotingBad, hc2]
    · have hc2 : goIsSpace (decodeRuneInString (b :: rest)).1 = true := hc
      simp [h, quotingBad, hc2]
    · have hc2 : ¬ goIsPrint (decodeRuneInString (b :: rest)).1 = true := hc
      simp [h, quotingBad, hc2]
  | case5 b rest h d hcond ih =>
    rw [needsQuotingLoop, runePositions]
    simp [h, hcond, quotingBad, ih]

/-- C5, counterexample: a string consisting of one double-quote
character needs quoting in the source (the quote is outside the JSON
safe set the loop tests), but satisfies none of the claim's conditions —
it is non-empty, has no space, '=', control byte or DEL, is valid UTF-8,
and the quote is a printable non-space character. -/
theorem C5_quote_char_counterexample :
    needsQuoting [0x22] = true ∧ claimNeedsQuoting [0x22] = false := by
  constructor
  · simp [needsQuoting, needsQuotingLoop.eq_def, safeSet]
  · simp [claimNeedsQuoting, goValidUTF8.eq_def, decodeRuneInString, RuneError,
      runePositions.eq_def]

/-- C5, amended: needsQuoting(s) is true iff s is empty or some visited
rune position is bad, where a position is bad when: it starts with an
ASCII byte other than backslash that is a space, an '=', or outside the
JSON safe set (i.e. a control byte below 0x20 or a double quote — DEL is
safe); or its decoded rune is the error rune U+FFFD (which covers every
invalid UTF-8 position and also a literal U+FFFD); or its decoded rune
is a Unicode space or non-printable. -/
theorem C5_needsQuoting_characterised (s : GoStr) :
    needsQuoting s = (s.isEmpty || (runePositions s).any quotingBad) := by
  rw [needsQuoting, needsQuotingLoop_eq_any]

/-- C7 witness: the amended statement at the concrete year-10000 time. -/
theorem C7_out_of_range_year_marker_witness :
    appendJSONTime sC7 tC7 =
      { appendError sC7 (gs "time.Time year outside of range [0,9999]") with
        buf := rfc3339NanoBytes
          ((appendError sC7 (gs "time.Time year outside of range [0,9999]")).buf ++ [0x22]) tC7
          ++ [0x22] } :=
  C7_out_of_range_year_marker sC7 tC7 (by right; simp [tC7])

/-- C8, confirmed: Handle's returned error is exactly the sink's write
error for the fully formatted buffer (first conjunct: Handle is the
writer applied to handleOutput, so it is none iff the write succeeds);
and the encoding never propagates an error — whenever the JSON or text
value formatter returns an error, appendValue embeds it inline through
appendError instead of returning it (second and third conjuncts). -/
theorem C8_handle_error_iff_write_error :
    (∀ (fuel : Nat) (h : Handler) (r : Record),
        Handle fuel h r = h.w (handleOutput fuel h r))
    ∧ (∀ (s : HState) (v : Value) (e : GoStr),
        s.h.json = true → (appendJSONValueE s v).1 = some e →
          appendValue s v = appendError (appendJSONValueE s v).2 e)
    ∧ (∀ (s : HState) (v : Value) (e : GoStr),
        s.h.json = false → (appendTextValueE s v).1 = some e →
          appendValue s v = appendError (appendTextValueE s v).2 e) := by
  refine ⟨fun _ _ _ => rfl, fun s v e hj he => ?_, fun s v e hj he => ?_⟩
  · simp [appendValue, hj, he]
  · simp [appendValue, hj, he]

/-- C8 witness: a JSON float whose marshaler fails has its error
embedded inline by appendValue. -/
theorem C8_handle_error_iff_write_error_witness :
    appendValue sC7 (Value.floatV [] (Except.error (gs "unsupported value")))
      = appendError sC7 (gs "unsupported value") := by
  have h := C8_handle_error_iff_write_error.2.1 sC7
    (Value.floatV [] (Except.error (gs "unsupported value"))) (gs "unsupported value")
    rfl rfl
  simpa [appendJSONValueE] using h

/-- sanitize replaces every byte at which rune decoding fails with the
UTF-8 bytes of U+FFFD and keeps every other rune: what
appendEscapedJSONString leaves recoverable of the raw input. -/
def sanitize : GoStr → GoStr
  | [] => []
  | b :: rest =>
    if b < 0x80 then b :: sanitize rest
    else
      let d := decodeRuneInString (b :: rest)
      if d.1 = RuneError ∧ d.2 = 1 then [0xEF, 0xBF, 0xBD] ++ sanitize rest
      else (b :: rest).take d.2 ++ sanitize (rest.drop (d.2 - 1))
termination_by s => s.length
decreasing_by
  all_goals simp only [List.length_drop, List.length_cons]; omega

theorem hexVal_hexDigit (m : Nat) (h : m < 16) : hexVal (hexDigit m) = some m := by
  interval_cases m <;> rfl

theorem unescStep_plain (b : Nat) (hb : b ≠ 0x5C) (rest : GoStr) :
    unescStep (b :: rest) = some ([b], 0) := by
  simp only [unescStep]
  rw [if_neg hb]

theorem hex4_u00 (b : Nat) (hb : b < 0x20) :
    hex4 0x30 0x30 (hexDigit (b / 16)) (hexDigit (b % 16)) = some b := by
  have h0 : hexVal 0x30 = some 0 := rfl
  have h1 : hexVal (hexDigit (b / 16)) = some (b / 16) := hexVal_hexDigit _ (by omega)
  have h2 : hexVal (hexDigit (b % 16)) = some (b % 16) := hexVal_hexDigit _ (by omega)
  unfold hex4
  rw [h0, h1, h2]
  simp only []
  congr 1
  omega

theorem encodeChar_ascii (b : Nat) (hb : b < 0x80) : utf8EncodeChar b = [b] := by
  unfold utf8EncodeChar
  rw [if_pos hb]

theorem unescU_u00 (b : Nat) (hb : b < 0x20) (t : GoStr) :
    unescU (0x30 :: 0x30 :: hexDigit (b / 16) :: hexDigit (b % 16) :: t)
      = some ([b], 4) := by
  simp only [unescU]
  rw [hex4_u00 b hb]
  simp only []
  rw [if_neg (by omega), if_neg (by omega), encodeChar_ascii b (by omega)]

theorem unescStep_u00 (b : Nat) (hb : b < 0x20) (t : GoStr) :
    unescStep (0x5C :: 0x75 :: 0x30 :: 0x30 :: hexDigit (b / 16) :: hexDigit (b % 16) :: t)
      = some ([b], 5) := by
  simp only [unescStep]
  norm_num [unescU_u00 b hb]

theorem unesc_step_some (b : Nat) (rest chunk : GoStr) (k : Nat)
    (h : unescStep (b :: rest) = some (chunk, k)) :
    jsonUnescape (b :: rest) = (jsonUnescape (rest.drop k)).map (chunk ++ ·) := by
  rw [jsonUnescape.eq_def]
  simp only [h]

theorem unesc_cons (b : Nat) (hb : b ≠ 0x5C) (t : GoStr) :
    jsonUnescape (b :: t) = (jsonUnescape t).map (b :: ·) := by
  rw [unesc_step_some b t [b] 0 (unescStep_plain b hb t)]
  rfl

theorem unesc_append_nobs (l t : GoStr) (hl : ∀ x ∈ l, x ≠ 0x5C) :
    jsonUnescape (l ++ t) = (jsonUnescape t).map (l ++ ·) := by
  induction l with
  | nil =>
    simp only [List.nil_append]
    cases jsonUnescape t <;> simp
  | cons x xs ih =>
    rw [List.cons_append, unesc_cons x (hl x (by simp)) (xs ++ t),
      ih (fun y hy => hl y (by simp [hy]))]
    cases jsonUnescape t <;> simp

theorem unescStep_short (e v : Nat) (t : GoStr)
    (h : (e = 0x22 ∧ v = 0x22) ∨ (e = 0x5C ∧ v = 0x5C) ∨ (e = 0x6E ∧ v = 0x0A)
      ∨ (e = 0x72 ∧ v = 0x0D) ∨ (e = 0x74 ∧ v = 0x09)) :
    unescStep (0x5C :: e :: t) = some ([v], 1) := by
  rcases h with ⟨he, hv⟩ | ⟨he, hv⟩ | ⟨he, hv⟩ | ⟨he, hv⟩ | ⟨he, hv⟩ <;>
    subst he <;> subst hv <;> simp [unescStep]

theorem unesc_short (e v : Nat) (t : GoStr)
    (h : (e = 0x22 ∧ v = 0x22) ∨ (e = 0x5C ∧ v = 0x5C) ∨ (e = 0x6E ∧ v = 0x0A)
      ∨ (e = 0x72 ∧ v = 0x0D) ∨ (e = 0x74 ∧ v = 0x09)) :
    jsonUnescape (0x5C :: e :: t) = (jsonUnescape t).map (v :: ·) := by
  rw [unesc_step_some _ _ _ _ (unescStep_short e v t h)]
  rfl

theorem unesc_u00 (b : Nat) (hb : b < 0x20) (t : GoStr) :
    jsonUnescape (0x5C :: 0x75 :: 0x30 :: 0x30 :: hexDigit (b / 16) :: hexDigit (b % 16) :: t)
      = (jsonUnescape t).map (b :: ·) := by
  rw [unesc_step_some _ _ _ _ (unescStep_u00 b hb t)]
  rfl

theorem unesc_ufffd (t : GoStr) :
    jsonUnescape (gs "\\ufffd" ++ t)
      = (jsonUnescape t).map ([0xEF, 0xBF, 0xBD] ++ ·) := by
  have hu : unescU (0x66 :: 0x66 :: 0x66 :: 0x64 :: t) = some ([0xEF, 0xBF, 0xBD], 4) := by
    simp [unescU, hex4, hexVal, utf8EncodeChar]
  have hs : unescStep (0x5C :: 0x75 :: 0x66 :: 0x66 :: 0x66 :: 0x64 :: t)
      = some ([0xEF, 0xBF, 0xBD], 5) := by
    simp [unescStep, hu]
  have hgs : gs "\\ufffd" ++ t = 0x5C :: 0x75 :: 0x66 :: 0x66 :: 0x66 :: 0x64 :: t := rfl
  rw [hgs, unesc_step_some _ _ _ _ hs]
  rfl

theorem unesc_u202x (v : Nat) (hv : v = 0x2028 ∨ v = 0x2029) (t : GoStr) :
    jsonUnescape (0x5C :: 0x75 :: 0x32 :: 0x30 :: 0x32 :: hexDigit (v % 16) :: t)
      = (jsonUnescape t).map ([0xE2, 0x80, 0x80 + v % 0x40] ++ ·) := by
  rcases hv with hv | hv <;> subst hv
  · have hu : unescU (0x32 :: 0x30 :: 0x32 :: hexDigit (0x2028 % 16) :: t)
        = some ([0xE2, 0x80, 0xA8], 4) := by
      simp [unescU, hex4, hexVal, hexDigit, hex, gs, utf8EncodeChar]
    have hs : unescStep (0x5C :: 0x75 :: 0x32 :: 0x30 :: 0x32 :: hexDigit (0x2028 % 16) :: t)
        = some ([0xE2, 0x80, 0xA8], 5) := by
      simp [unescStep, hu]
    rw [unesc_step_some _ _ _ _ hs]
    rfl
  · have hu : unescU (0x32 :: 0x30 :: 0x32 :: hexDigit (0x2029 % 16) :: t)
        = some ([0xE2, 0x80, 0xA9], 4) := by
      simp [unescU, hex4, hexVal, hexDigit, hex, gs, utf8EncodeChar]
    have hs : unescStep (0x5C :: 0x75 :: 0x32 :: 0x30 :: 0x32 :: hexDigit (0x2029 % 16) :: t)
        = some ([0xE2, 0x80, 0xA9], 5) := by
      simp [unescStep, hu]
    rw [unesc_step_some _ _ _ _ hs]
    rfl

theorem encode1 (c : Nat) (h : c < 0x80) : utf8EncodeChar c = [c] := by
  unfold utf8EncodeChar
  rw [if_pos h]

theorem encode2 (c : Nat) (h1 : 0x80 ≤ c) (h2 : c < 0x800) :
    utf8EncodeChar c = [0xC0 + c / 0x40, 0x80 + c % 0x40] := by
  unfold utf8EncodeChar
  rw [if_neg (by omega), if_pos h2]

theorem encode3 (c : Nat) (h1 : 0x800 ≤ c) (h2 : c < 0x10000) :
    utf8EncodeChar c = [0xE0 + c / 0x1000, 0x80 + c / 0x40 % 0x40, 0x80 + c % 0x40] := by
  unfold utf8EncodeChar
  rw [if_neg (by omega), if_neg (by omega), if_pos h2]

theorem encode4 (c : Nat) (h1 : 0x10000 ≤ c) :
    utf8EncodeChar c
      = [0xF0 + c / 0x40000, 0x80 + c / 0x1000 % 0x40, 0x80 + c / 0x40 % 0x40, 0x80 + c % 0x40] := by
  unfold utf8EncodeChar
  rw [if_neg (by omega), if_neg (by omega), if_neg (by omega)]

/-- decode_good packages what a successful decode gives: the consumed
bytes are the UTF-8 encoding of the rune, sizes and scalar ranges. -/
theorem decode_good (b : Nat) (rest : GoStr)
    (h : ¬((decodeRuneInString (b :: rest)).1 = RuneError
        ∧ (decodeRuneInString (b :: rest)).2 = 1)) :
    (b :: rest).take (decodeRuneInString (b :: rest)).2
        = utf8EncodeChar (decodeRuneInString (b :: rest)).1
      ∧ 1 ≤ (decodeRuneInString (b :: rest)).2
      ∧ (decodeRuneInString (b :: rest)).2 ≤ (b :: rest).length
      ∧ (decodeRuneInString (b :: rest)).1 < 0x110000
      ∧ ¬(0xD800 ≤ (decodeRuneInString (b :: rest)).1
          ∧ (decodeRuneInString (b :: rest)).1 < 0xE000)
      ∧ (b < 0x80 → (decodeRuneInString (b :: rest)).1 = b)
      ∧ (0x80 ≤ b → 0x80 ≤ (decodeRuneInString (b :: rest)).1) := by
  by_cases hb0 : b < 0x80
  · have hd : decodeRuneInString (b :: rest) = (b, 1) := by
      simp only [decodeRuneInString]
      rw [if_pos hb0]
    rw [hd]
    refine ⟨?_, by omega, by simp, by omega, by omega, fun _ => rfl, by omega⟩
    simp [List.take, encode1 b hb0]
  · by_cases hb1 : b < 0xC2
    · exfalso
      apply h
      simp only [decodeRuneInString]
      rw [if_neg hb0, if_pos hb1]
      simp [RuneError]
    · by_cases hb2 : b < 0xE0
      · match rest with
        | [] =>
          exfalso; apply h
          simp only [decodeRuneInString]
          rw [if_neg hb0, if_neg hb1, if_pos hb2]
          simp [RuneError]
        | b1 :: rest1 =>
          by_cases hc1 : 0x80 ≤ b1 ∧ b1 < 0xC0
          · have hd : decodeRuneInString (b :: b1 :: rest1)
                = ((b - 0xC0) * 0x40 + (b1 - 0x80), 2) := by
              simp only [decodeRuneInString]
              rw [if_neg hb0, if_neg hb1, if_pos hb2]
              simp only [if_pos hc1]
            rw [hd]
            refine ⟨?_, by omega, by simp, by omega, by omega, by omega, by omega⟩
            rw [encode2 _ (by omega) (by omega)]
            simp only [List.take, List.cons.injEq, and_true]
            constructor <;> omega
          · exfalso; apply h
            simp only [decodeRuneInString]
            rw [if_neg hb0, if_neg hb1, if_pos hb2]
            simp only [if_neg hc1]
            simp [RuneError]
      · by_cases hb3 : b < 0xF0
        · match rest with
          | [] =>
            exfalso; apply h
            simp only [decodeRuneInString]
            rw [if_neg hb0, if_neg hb1, if_neg hb2, if_pos hb3]
            simp [RuneError]
          | [b1] =>
            exfalso; apply h
            simp only [decodeRuneInString]
            rw [if_neg hb0, if_neg hb1, if_neg hb2, if_pos hb3]
            split_ifs <;> simp [RuneError]
          | b1 :: b2 :: rest2 =>
            by_cases hc1 : (if b = 0xE0 then 0xA0 ≤ b1 ∧ b1 < 0xC0
                else if b = 0xED then 0x80 ≤ b1 ∧ b1 < 0xA0
                else 0x80 ≤ b1 ∧ b1 < 0xC0)
            · by_cases hc2 : 0x80 ≤ b2 ∧ b2 < 0xC0
              · have hd : decodeRuneInString (b :: b1 :: b2 :: rest2)
                    = ((b - 0xE0) * 0x1000 + (b1 - 0x80) * 0x40 + (b2 - 0x80), 3) := by
                  simp only [decodeRuneInString]
                  rw [if_neg hb0, if_neg hb1, if_neg hb2, if_pos hb3]
                  simp only [if_pos hc1, if_pos hc2]
                have hb1b : 0x80 ≤ b1 ∧ b1 < 0xC0 := by
                  split_ifs at hc1 <;> omega
                have hsur : ¬(0xD800 ≤ (b - 0xE0) * 0x1000 + (b1 - 0x80) * 0x40 + (b2 - 0x80)
                    ∧ (b - 0xE0) * 0x1000 + (b1 - 0x80) * 0x40 + (b2 - 0x80) < 0xE000) := by
                  split_ifs at hc1 with hE0 hED <;> omega
                have hlo : 0x800 ≤ (b - 0xE0) * 0x1000 + (b1 - 0x80) * 0x40 + (b2 - 0x80) := by
                  split_ifs at hc1 with hE0 hED <;> omega
                rw [hd]
                refine ⟨?_, by omega, by simp only [List.length_cons]; omega,
                  by omega, hsur, by omega, by omega⟩
                rw [encode3 _ hlo (by omega)]
                simp only [List.take, List.cons.injEq, and_true]
                refine ⟨?_, ?_, ?_⟩ <;> omega
              · exfalso; apply h
                simp only [decodeRuneInString]
                rw [if_neg hb0, if_neg hb1, if_neg hb2, if_pos hb3]
                simp only [if_pos hc1, if_neg hc2]
                simp [RuneError]
            · exfalso; apply h
              simp only [decodeRuneInString]
              rw [if_neg hb0, if_neg hb1, if_neg hb2, if_pos hb3]
              simp only [if_neg hc1]
              simp [RuneError]
        · by_cases hb4 : b < 0xF5
          · match rest with
            | [] =>
              exfalso; apply h
              simp only [decodeRuneInString]
              rw [if_neg hb0, if_neg hb1, if_neg hb2, if_neg hb3, if_pos hb4]
              simp [RuneError]
            | [b1] =>
              exfalso; apply h
              simp only [decodeRuneInString]
              rw [if_neg hb0, if_neg hb1, if_neg hb2, if_neg hb3, if_pos hb4]
              simp [RuneError]
            | [b1, b2] =>
              exfalso; apply h
              simp only [decodeRuneInString]
              rw [if_neg hb0, if_neg hb1, if_neg hb2, if_neg hb3, if_pos hb4]
              simp [RuneError]
            | b1 :: b2 :: b3 :: rest3 =>
              by_cases hc1 : (if b = 0xF0 then 0x90 ≤ b1 ∧ b1 < 0xC0
                  else if b = 0xF4 then 0x80 ≤ b1 ∧ b1 < 0x90
                  else 0x80 ≤ b1 ∧ b1 < 0xC0)
              · by_cases hc2 : 0x80 ≤ b2 ∧ b2 < 0xC0
                · by_cases hc3 : 0x80 ≤ b3 ∧ b3 < 0xC0
                  · have hd : decodeRuneInString (b :: b1 :: b2 :: b3 :: rest3)
                        = ((b - 0xF0) * 0x40000 + (b1 - 0x80) * 0x1000
                            + (b2 - 0x80) * 0x40 + (b3 - 0x80), 4) := by
                      simp only [decodeRuneInString]
                      rw [if_neg hb0, if_neg hb1, if_neg hb2, if_neg hb3, if_pos hb4]
                      simp only [if_pos hc1, if_pos hc2, if_pos hc3]
                    have hb1b : 0x80 ≤ b1 ∧ b1 < 0xC0 := by
                      split_ifs at hc1 <;> omega
                    have hlo : 0x10000 ≤ (b - 0xF0) * 0x40000 + (b1 - 0x80) * 0x1000
                        + (b2 - 0x80) * 0x40 + (b3 - 0x80) := by
                      split_ifs at hc1 with hF0 hF4 <;> omega
                    have hhi : (b - 0xF0) * 0x40000 + (b1 - 0x80) * 0x1000
                        + (b2 - 0x80) * 0x40 + (b3 - 0x80) < 0x110000 := by
                      split_ifs at hc1 with hF0 hF4 <;> omega
                    rw [hd]
                    refine ⟨?_, by omega, by simp only [List.length_cons]; omega,
                      hhi, by omega, by omega, by omega⟩
                    rw [encode4 _ hlo]
                    simp only [List.take, List.cons.injEq, and_true]
                    refine ⟨?_, ?_, ?_, ?_⟩ <;> omega
                  · exfalso; apply h
                    simp only [decodeRuneInString]
                    rw [if_neg hb0, if_neg hb1, if_neg hb2, if_neg hb3, if_pos hb4]
                    simp only [if_pos hc1, if_pos hc2, if_neg hc3]
                    simp [RuneError]
                · exfalso; apply h
                  simp only [decodeRuneInString]
                  rw [if_neg hb0, if_neg hb1, if_neg hb2, if_neg hb3, if_pos hb4]
                  simp only [if_pos hc1, if_neg hc2]
                  simp [RuneError]
              · exfalso; apply h
                simp only [decodeRuneInString]
                rw [if_neg hb0, if_neg hb1, if_neg hb2, if_neg hb3, if_pos hb4]
                simp only [if_neg hc1]
                simp [RuneError]
          · exfalso; apply h
            simp only [decodeRuneInString]
            rw [if_neg hb0, if_neg hb1, if_neg hb2, if_neg hb3, if_neg hb4]
            simp [RuneError]

theorem decode_ascii (b : Nat) (hb : b < 0x80) (t : GoStr) :
    decodeRuneInString (b :: t) = (b, 1) := by
  simp only [decodeRuneInString]
  rw [if_pos hb]

set_option maxRecDepth 8192 in
/-- encodeDecode: decoding the canonical UTF-8 encoding of a Unicode
scalar value, with anything appended, gives back the scalar and its
byte length. -/
theorem encodeDecode (c : Nat) (h1 : c < 0x110000) (h2 : ¬(0xD800 ≤ c ∧ c < 0xE000))
    (t : GoStr) :
    decodeRuneInString (utf8EncodeChar c ++ t) = (c, (utf8EncodeChar c).length) := by
  by_cases hc1 : c < 0x80
  · rw [encode1 c hc1]
    simp only [List.cons_append, List.nil_append, List.length_cons, List.length_nil]
    exact decode_ascii c hc1 t
  · by_cases hc2 : c < 0x800
    · rw [encode2 c (by omega) hc2]
      simp only [List.cons_append, List.nil_append, List.length_cons, List.length_nil]
      simp only [decodeRuneInString]
      rw [if_neg (by omega), if_neg (by omega), if_pos (by omega)]
      rw [if_pos (by constructor <;> omega)]
      congr 1
      omega
    · by_cases hc3 : c < 0x10000
      · rw [encode3 c (by omega) hc3]
        simp only [List.cons_append, List.nil_append, List.length_cons, List.length_nil]
        simp only [decodeRuneInString]
        rw [if_neg (by omega), if_neg (by omega), if_neg (by omega), if_pos (by omega)]
        have hb1 : (if 0xE0 + c / 0x1000 = 0xE0 then 0xA0 ≤ 0x80 + c / 0x40 % 0x40 ∧ 0x80 + c / 0x40 % 0x40 < 0xC0
            else if 0xE0 + c / 0x1000 = 0xED then 0x80 ≤ 0x80 + c / 0x40 % 0x40 ∧ 0x80 + c / 0x40 % 0x40 < 0xA0
            else 0x80 ≤ 0x80 + c / 0x40 % 0x40 ∧ 0x80 + c / 0x40 % 0x40 < 0xC0) := by
          split_ifs with hE0 hED
          · constructor <;> omega
          · constructor <;> omega
          · constructor <;> omega
        rw [if_pos hb1, if_pos (by constructor <;> omega)]
        congr 1
        omega
      · rw [encode4 c (by omega)]
        simp only [List.cons_append, List.nil_append, List.length_cons, List.length_nil]
        simp only [decodeRuneInString]
        rw [if_neg (by omega), if_neg (by omega), if_neg (by omega), if_neg (by omega),
          if_pos (by omega)]
        have hb1 : (if 0xF0 + c / 0x40000 = 0xF0 then 0x90 ≤ 0x80 + c / 0x1000 % 0x40 ∧ 0x80 + c / 0x1000 % 0x40 < 0xC0
            else if 0xF0 + c / 0x40000 = 0xF4 then 0x80 ≤ 0x80 + c / 0x1000 % 0x40 ∧ 0x80 + c / 0x1000 % 0x40 < 0x90
            else 0x80 ≤ 0x80 + c / 0x1000 % 0x40 ∧ 0x80 + c / 0x1000 % 0x40 < 0xC0) := by
          split_ifs with hF0 hF4
          · constructor <;> omega
          · constructor <;> omega
          · constructor <;> omega
        rw [if_pos hb1, if_pos (by constructor <;> omega), if_pos (by constructor <;> omega)]
        congr 1
        omega

theorem encode_ne_nil (c : Nat) : utf8EncodeChar c ≠ [] := by
  unfold utf8EncodeChar
  split_ifs <;> simp

/-- valid_append_encode: a canonical encoding prepended to a string does
not change its validity. -/
theorem valid_append_encode (c : Nat) (h1 : c < 0x110000) (h2 : ¬(0xD800 ≤ c ∧ c < 0xE000))
    (t : GoStr) :
    goValidUTF8 (utf8EncodeChar c ++ t) = goValidUTF8 t := by
  have hd := encodeDecode c h1 h2 t
  match he : utf8EncodeChar c, (encode_ne_nil c) with
  | x :: l', _ =>
    rw [he] at hd
    rw [List.cons_append, goValidUTF8]
    rw [List.cons_append] at hd
    simp only [hd]
    have hlen : (x :: l').length = l'.length + 1 := by simp
    have hne : ¬(c = RuneError ∧ (x :: l').length = 1) := by
      rintro ⟨hcf, hll⟩
      subst hcf
      have hfe : utf8EncodeChar RuneError = [0xEF, 0xBF, 0xBD] := by
        norm_num [utf8EncodeChar, RuneError]
      rw [hfe] at he
      rw [← he] at hll
      simp at hll
    rw [if_neg (by rw [hlen] at hne ⊢; exact fun hx => hne ⟨hx.1, by omega⟩)]
    rw [hlen]
    simp only [Nat.add_sub_cancel]
    rw [List.drop_left]

theorem valid_cons_ascii (b : Nat) (hb : b < 0x80) (t : GoStr) :
    goValidUTF8 (b :: t) = goValidUTF8 t := by
  rw [goValidUTF8]
  simp only [decode_ascii b hb]
  rw [if_neg (by simp [RuneError]; omega)]
  simp

theorem valid_append_ascii (l t : GoStr) (hl : ∀ x ∈ l, x < 0x80) :
    goValidUTF8 (l ++ t) = goValidUTF8 t := by
  induction l with
  | nil => simp
  | cons x xs ih =>
    rw [List.cons_append, valid_cons_ascii x (hl x (by simp)) (xs ++ t)]
    exact ih (fun y hy => hl y (by simp [hy]))

theorem hexDigit_lt (n : Nat) : hexDigit n < 0x80 := by
  unfold hexDigit
  by_cases h : n < 16
  · interval_cases n <;> decide
  · rw [List.getD_eq_default]
    · decide
    · have hl : hex.length = 16 := by decide
      omega

theorem encode_bytes_hi (c : Nat) (hc : 0x80 ≤ c) :
    ∀ x ∈ utf8EncodeChar c, 0x80 ≤ x := by
  intro x hx
  unfold utf8EncodeChar at hx
  split_ifs at hx with h1 h2 h3
  · omega
  · simp at hx
    rcases hx with hx | hx <;> omega
  · simp at hx
    rcases hx with hx | hx | hx <;> omega
  · simp at hx
    rcases hx with hx | hx | hx | hx <;> omega

/-- escapeJSON_valid: the escaped output is always valid UTF-8. -/
theorem escapeJSON_valid (s : GoStr) : goValidUTF8 (escapeJSON s) = true := by
  induction s using escapeJSON.induct with
  | case1 => simp [escapeJSON, goValidUTF8]
  | case2 b rest hb hs ih =>
    rw [escapeJSON]
    simp only [if_pos hb, if_pos hs]
    rw [valid_cons_ascii b hb]
    exact ih
  | case3 b rest hb hs ih =>
    rw [escapeJSON]
    simp only [if_pos hb, if_neg hs]
    rw [show (0x5C :: (if b = 0x5C ∨ b = 0x22 then [b]
        else if b = 0x0A then [0x6E]
        else if b = 0x0D then [0x72]
        else if b = 0x09 then [0x74]
        else [0x75, 0x30, 0x30, hexDigit (b / 16), hexDigit (b % 16)])) ++ escapeJSON rest
      = 0x5C :: ((if b = 0x5C ∨ b = 0x22 then [b]
        else if b = 0x0A then [0x6E]
        else if b = 0x0D then [0x72]
        else if b = 0x09 then [0x74]
        else [0x75, 0x30, 0x30, hexDigit (b / 16), hexDigit (b % 16)]) ++ escapeJSON rest)
      from by simp]
    rw [valid_cons_ascii 0x5C (by omega)]
    rw [valid_append_ascii _ _ ?hall]
    · exact ih
    case hall =>
      intro x hx
      have hda := hexDigit_lt (b / 16)
      have hdb := hexDigit_lt (b % 16)
      split_ifs at hx <;> simp at hx <;>
        first
          | omega
          | (rcases hx with hx | hx <;> omega)
          | (rcases hx with hx | hx | hx <;> omega)
          | (rcases hx with hx | hx | hx | hx <;> omega)
          | (rcases hx with hx | hx | hx | hx | hx <;> omega)
  | case4 b rest hb d herr ih =>
    rw [escapeJSON]
    simp only [if_neg hb]
    have herr2 : ((decodeRuneInString (b :: rest)).1 = RuneError
        ∧ (decodeRuneInString (b :: rest)).2 = 1) := herr
    rw [if_pos herr2]
    rw [valid_append_ascii _ _ (by decide)]
    exact ih
  | case5 b rest hb d herr h202 ih =>
    rw [escapeJSON]
    simp only [if_neg hb]
    have herr2 : ¬((decodeRuneInString (b :: rest)).1 = RuneError
        ∧ (decodeRuneInString (b :: rest)).2 = 1) := herr
    have h202b : ((decodeRuneInString (b :: rest)).1 = 0x2028
        ∨ (decodeRuneInString (b :: rest)).1 = 0x2029) := h202
    rw [if_neg herr2, if_pos h202b]
    rw [valid_append_ascii _ _ ?hall2]
    · exact ih
    case hall2 =>
      intro x hx
      have hda := hexDigit_lt ((decodeRuneInString (b :: rest)).1 % 16)
      simp [gs, utf8EncodeChar] at hx
      first
        | omega
        | (rcases hx with hx | hx <;> omega)
        | (rcases hx with hx | hx | hx <;> omega)
        | (rcases hx with hx | hx | hx | hx <;> omega)
        | (rcases hx with hx | hx | hx | hx | hx <;> omega)
        | (rcases hx with hx | hx | hx | hx | hx | hx <;> omega)
  | case6 b rest hb d herr h202 ih =>
    rw [escapeJSON]
    simp only [if_neg hb]
    have herr2 : ¬((decodeRuneInString (b :: rest)).1 = RuneError
        ∧ (decodeRuneInString (b :: rest)).2 = 1) := herr
    have h202b : ¬((decodeRuneInString (b :: rest)).1 = 0x2028
        ∨ (decodeRuneInString (b :: rest)).1 = 0x2029) := h202
    rw [if_neg herr2, if_neg h202b]
    have hg := decode_good b rest herr2
    rw [hg.1, valid_append_encode _ (hg.2.2.2.1) (hg.2.2.2.2.1)]
    exact ih

/-- sanitize_valid: sanitized output is always valid UTF-8. -/
theorem sanitize_valid (s : GoStr) : goValidUTF8 (sanitize s) = true := by
  induction s using sanitize.induct with
  | case1 => simp [sanitize, goValidUTF8]
  | case2 b rest hb ih =>
    rw [sanitize]
    simp only [if_pos hb]
    rw [valid_cons_ascii b hb]
    exact ih
  | case3 b rest hb d herr ih =>
    rw [sanitize]
    simp only [if_neg hb]
    have herr2 : ((decodeRuneInString (b :: rest)).1 = RuneError
        ∧ (decodeRuneInString (b :: rest)).2 = 1) := herr
    rw [if_pos herr2]
    have hfe : [0xEF, 0xBF, 0xBD] = utf8EncodeChar 0xFFFD := by
      norm_num [utf8EncodeChar]
    rw [hfe, valid_append_encode _ (by omega) (by omega)]
    exact ih
  | case4 b rest hb d herr ih =>
    rw [sanitize]
    simp only [if_neg hb]
    have herr2 : ¬((decodeRuneInString (b :: rest)).1 = RuneError
        ∧ (decodeRuneInString (b :: rest)).2 = 1) := herr
    rw [if_neg herr2]
    have hg := decode_good b rest herr2
    rw [hg.1, valid_append_encode _ (hg.2.2.2.1) (hg.2.2.2.2.1)]
    exact ih

/-- sanitize_of_valid: a valid string is unchanged by sanitize. -/
theorem sanitize_of_valid (s : GoStr) (hv : goValidUTF8 s = true) : sanitize s = s := by
  induction s using sanitize.induct with
  | case1 => simp [sanitize]
  | case2 b rest hb ih =>
    rw [sanitize]
    simp only [if_pos hb]
    rw [valid_cons_ascii b hb] at hv
    rw [ih hv]
  | case3 b rest hb d herr ih =>
    exfalso
    rw [goValidUTF8] at hv
    have herr2 : ((decodeRuneInString (b :: rest)).1 = RuneError
        ∧ (decodeRuneInString (b :: rest)).2 = 1) := herr
    rw [if_pos herr2] at hv
    exact Bool.false_ne_true hv
  | case4 b rest hb d herr ih =>
    rw [sanitize]
    simp only [if_neg hb]
    have herr2 : ¬((decodeRuneInString (b :: rest)).1 = RuneError
        ∧ (decodeRuneInString (b :: rest)).2 = 1) := herr
    rw [if_neg herr2]
    rw [goValidUTF8] at hv
    rw [if_neg herr2] at hv
    rw [ih hv]
    have hg := decode_good b rest herr2
    have hn1 : 1 ≤ (decodeRuneInString (b :: rest)).2 := hg.2.1
    have hdrop : List.drop ((decodeRuneInString (b :: rest)).2 - 1) rest
        = List.drop (decodeRuneInString (b :: rest)).2 (b :: rest) := by
      match hh : (decodeRuneInString (b :: rest)).2, hn1 with
      | n + 1, _ => simp
    rw [hdrop, List.take_append_drop]

/-- unesc_escapeJSON: unescaping the escaped string recovers the input
with every invalid byte replaced by U+FFFD. -/
theorem unesc_escapeJSON (s : GoStr) :
    jsonUnescape (escapeJSON s) = some (sanitize s) := by
  induction s using escapeJSON.induct with
  | case1 => simp [escapeJSON, sanitize, jsonUnescape]
  | case2 b rest hb hs ih =>
    rw [escapeJSON]
    simp only [if_pos hb, if_pos hs]
    rw [unesc_cons b (by intro hc; subst hc; simp [safeSet] at hs) _, ih]
    rw [sanitize]
    simp only [if_pos hb]
    rfl
  | case3 b rest hb hs ih =>
    rw [escapeJSON]
    simp only [if_pos hb, if_neg hs]
    have hbval : b < 0x20 ∨ b = 0x22 ∨ b = 0x5C := by
      simp [safeSet] at hs
      omega
    have hsan : sanitize (b :: rest) = b :: sanitize rest := by
      rw [sanitize]
      simp only [if_pos hb]
    by_cases hq : b = 0x5C ∨ b = 0x22
    · rw [if_pos hq]
      have : (0x5C :: [b]) ++ escapeJSON rest = 0x5C :: b :: escapeJSON rest := rfl
      rw [this]
      rcases hq with hq | hq <;> subst hq
      · rw [unesc_short 0x5C 0x5C _ (by tauto), ih, hsan]
        rfl
      · rw [unesc_short 0x22 0x22 _ (by tauto), ih, hsan]
        rfl
    · rw [if_neg hq]
      by_cases h10 : b = 0x0A
      · rw [if_pos h10]
        subst h10
        rw [show (0x5C :: [0x6E]) ++ escapeJSON rest = 0x5C :: 0x6E :: escapeJSON rest from rfl]
        rw [unesc_short 0x6E 0x0A _ (by tauto), ih, hsan]
        rfl
      · rw [if_neg h10]
        by_cases h13 : b = 0x0D
        · rw [if_pos h13]
          subst h13
          rw [show (0x5C :: [0x72]) ++ escapeJSON rest = 0x5C :: 0x72 :: escapeJSON rest from rfl]
          rw [unesc_short 0x72 0x0D _ (by tauto), ih, hsan]
          rfl
        · rw [if_neg h13]
          by_cases h9 : b = 0x09
          · rw [if_pos h9]
            subst h9
            rw [show (0x5C :: [0x74]) ++ escapeJSON rest = 0x5C :: 0x74 :: escapeJSON rest from rfl]
            rw [unesc_short 0x74 0x09 _ (by tauto), ih, hsan]
            rfl
          · rw [if_neg h9]
            have hlt : b < 0x20 := by
              rcases hbval with hv | hv | hv
              · exact hv
              · exact absurd (Or.inr hv) hq
              · exact absurd (Or.inl hv) hq
            rw [show (0x5C :: [0x75, 0x30, 0x30, hexDigit (b / 16), hexDigit (b % 16)])
                ++ escapeJSON rest
              = 0x5C :: 0x75 :: 0x30 :: 0x30 :: hexDigit (b / 16) :: hexDigit (b % 16)
                :: escapeJSON rest from rfl]
            rw [unesc_u00 b hlt _, ih, hsan]
            rfl
  | case4 b rest hb d herr ih =>
    rw [escapeJSON]
    simp only [if_neg hb]
    have herr2 : ((decodeRuneInString (b :: rest)).1 = RuneError
        ∧ (decodeRuneInString (b :: rest)).2 = 1) := herr
    rw [if_pos herr2]
    rw [unesc_ufffd _, ih]
    rw [sanitize]
    simp only [if_neg hb]
    rw [if_pos herr2]
    rfl
  | case5 b rest hb d herr h202 ih =>
    rw [escapeJSON]
    simp only [if_neg hb]
    have herr2 : ¬((decodeRuneInString (b :: rest)).1 = RuneError
        ∧ (decodeRuneInString (b :: rest)).2 = 1) := herr
    have h202b : ((decodeRuneInString (b :: rest)).1 = 0x2028
        ∨ (decodeRuneInString (b :: rest)).1 = 0x2029) := h202
    rw [if_neg herr2, if_pos h202b]
    have hg := decode_good b rest herr2
    have hsan : sanitize (b :: rest)
        = (b :: rest).take (decodeRuneInString (b :: rest)).2
          ++ sanitize (rest.drop ((decodeRuneInString (b :: rest)).2 - 1)) := by
      rw [sanitize]
      simp only [if_neg hb]
      rw [if_neg herr2]
    rw [show (gs "\\u202" ++ [hexDigit ((decodeRuneInString (b :: rest)).1 % 16)])
        ++ escapeJSON (rest.drop ((decodeRuneInString (b :: rest)).2 - 1))
      = 0x5C :: 0x75 :: 0x32 :: 0x30 :: 0x32
        :: hexDigit ((decodeRuneInString (b :: rest)).1 % 16)
        :: escapeJSON (rest.drop ((decodeRuneInString (b :: rest)).2 - 1)) from rfl]
    rw [unesc_u202x _ h202b _, ih, hsan]
    have htake : (b :: rest).take (decodeRuneInString (b :: rest)).2
        = [0xE2, 0x80, 0x80 + (decodeRuneInString (b :: rest)).1 % 0x40] := by
      rw [hg.1]
      rcases h202b with hv | hv <;> rw [hv] <;> norm_num [utf8EncodeChar]
    rw [htake]
    rfl
  | case6 b rest hb d herr h202 ih =>
    rw [escapeJSON]
    simp only [if_neg hb]
    have herr2 : ¬((decodeRuneInString (b :: rest)).1 = RuneError
        ∧ (decodeRuneInString (b :: rest)).2 = 1) := herr
    have h202b : ¬((decodeRuneInString (b :: rest)).1 = 0x2028
        ∨ (decodeRuneInString (b :: rest)).1 = 0x2029) := h202
    rw [if_neg herr2, if_neg h202b]
    have hg := decode_good b rest herr2
    have hb80 : 0x80 ≤ (decodeRuneInString (b :: rest)).1 := hg.2.2.2.2.2.2 (by omega)
    rw [unesc_append_nobs _ _ ?hnb, ih]
    · rw [sanitize]
      simp only [if_neg hb]
      rw [if_neg herr2]
      rfl
    case hnb =>
      intro x hx
      rw [hg.1] at hx
      have := encode_bytes_hi _ hb80 x hx
      omega

/-- containsSpecialJSON is the domain of claim C9: the string contains a
control character, a double quote, a backslash, or one of the Unicode
separators U+2028/U+2029. -/
def containsSpecialJSON (s : GoStr) : Bool :=
  s.any (fun b => b < 0x20 || b = 0x22 || b = 0x5C)
    || (runePositions s).any (fun t =>
        (decodeRuneInString t).1 = 0x2028 || (decodeRuneInString t).1 = 0x2029)

/-- C9, amended: for every VALID-UTF-8 input string that contains
control characters, quotes, backslashes, or U+2028/U+2029, JSON-escaping
followed by standard JSON unescaping recovers the original string
exactly.  (Validity is the amendment: an invalid byte is replaced by a
u+fffd escape and is not recovered.) -/
theorem C9_escape_roundtrip (s : GoStr)
    (hv : goValidUTF8 s = true) (hc : containsSpecialJSON s = true) :
    jsonUnescape (appendEscapedJSONString [] s) = some s := by
  rw [appendEscapedJSONString, List.nil_append, unesc_escapeJSON, sanitize_of_valid s hv]

/-- C9 witness: the round trip at a concrete string holding a quote, a
backslash, a newline and U+2028. -/
theorem C9_escape_roundtrip_witness :
    jsonUnescape (appendEscapedJSONString [] (gs "a\"b\\c\nd "))
      = some (gs "a\"b\\c\nd ") := by
  apply C9_escape_roundtrip
  · simp [goValidUTF8.eq_def, gs, utf8EncodeChar, decodeRuneInString, RuneError]
  · simp [containsSpecialJSON, gs, utf8EncodeChar]

/-- C9, counterexample: the claim as stated quantifies over every string
containing a control character; the string 0x0A 0xFF contains one, but
its 0xFF byte is invalid UTF-8, the escaper replaces it with a literal
ufffd escape, and unescaping yields U+FFFD's bytes, not the original. -/
theorem C9_invalid_byte_counterexample :
    containsSpecialJSON [0x0A, 0xFF] = true
      ∧ jsonUnescape (appendEscapedJSONString [] [0x0A, 0xFF])
          = some [0x0A, 0xEF, 0xBF, 0xBD]
      ∧ jsonUnescape (appendEscapedJSONString [] [0x0A, 0xFF]) ≠ some [0x0A, 0xFF] := by
  have he : jsonUnescape (appendEscapedJSONString [] [0x0A, 0xFF])
      = some [0x0A, 0xEF, 0xBF, 0xBD] := by
    rw [appendEscapedJSONString, List.nil_append, unesc_escapeJSON]
    simp [sanitize.eq_def, decodeRuneInString, RuneError]
  refine ⟨by decide, he, ?_⟩
  rw [he]
  decide

/-- C10, confirmed: escapeJSON replaces every byte at which UTF-8
decoding fails with the six-character escape ufffd (second conjunct), so
the escaped output is always valid UTF-8 (first conjunct), and a string
containing an invalid UTF-8 sequence is never recovered by unescaping
(third conjunct). -/
theorem C10_invalid_bytes_replaced :
    (∀ s : GoStr, goValidUTF8 (escapeJSON s) = true)
    ∧ (∀ (b : Nat) (rest : GoStr), 0x80 ≤ b →
        (decodeRuneInString (b :: rest)).1 = RuneError →
        (decodeRuneInString (b :: rest)).2 = 1 →
        escapeJSON (b :: rest) = gs "\\ufffd" ++ escapeJSON rest)
    ∧ (∀ s : GoStr, goValidUTF8 s = false →
        jsonUnescape (appendEscapedJSONString [] s) ≠ some s) := by
  refine ⟨escapeJSON_valid, ?_, ?_⟩
  · intro b rest hb he hn
    rw [escapeJSON]
    rw [if_neg (by omega), if_pos ⟨he, hn⟩]
  · intro s hv hcon
    rw [appendEscapedJSONString, List.nil_append, unesc_escapeJSON] at hcon
    injection hcon with hcon
    have hval := sanitize_valid s
    rw [hcon] at hval
    rw [hval] at hv
    simp at hv

/-- C10 witness: at the single invalid byte 0xFF the escaper emits the
literal ufffd escape and the round trip does not recover the byte. -/
theorem C10_invalid_bytes_replaced_witness :
    escapeJSON [0xFF] = gs "\\ufffd"
      ∧ jsonUnescape (appendEscapedJSONString [] [0xFF]) ≠ some [0xFF] := by
  constructor
  · have h := C10_invalid_bytes_replaced.2.1 0xFF [] (by omega) (by decide) (by decide)
    rw [h]
    simp [escapeJSON]
  · exact C10_invalid_bytes_replaced.2.2 [0xFF]
      (by simp [goValidUTF8.eq_def, decodeRuneInString, RuneError])

end Otris
